import Mathlib

/-! Terraform_Pro_Azure: a shallow embedding of the provider's conditional rules

The resource handlers of the provider are embedded as pure functions.  A handler receives the
values it reads from the resource data, the results of the helpers and SDK functions whose code
is not part of the sources, and the answers of the remote API; it returns how the Go function
ends together with the list of client calls it made, in order.
-/

set_option autoImplicit false

namespace TerraformProAzure

/-- How a Go function ends: a normal return of a value, a returned `error`, or a run-time panic
(nil dereference, failed type assertion). -/
inductive Outcome (ε α : Type) where
  | ok (a : α)
  | error (e : ε)
  | panic
  deriving DecidableEq, Repr

namespace Outcome

/-- The function returned a non-nil `error`. -/
def isError {ε α : Type} : Outcome ε α → Bool
  | .error _ => true
  | _ => false

/-- The function returned normally (`nil` error). -/
def isOk {ε α : Type} : Outcome ε α → Bool
  | .ok _ => true
  | _ => false

end Outcome

/-- What `d.GetOk` gives for a list or set valued key: the value, and whether it is set to a
non-zero value, that is whether it is non-empty (plugin SDK, not part of the sources). -/
def GetOkList {α : Type} (v : List α) : List α × Bool :=
  (v, !v.isEmpty)

/-- What `d.GetOk` gives for a string valued key: the value and whether it is non-empty. -/
def GetOkString (v : String) : String × Bool :=
  (v, v != "")

/-! ## Batch account (`internal/services/batch/batch_account_resource.go`) -/

namespace BatchAccount

/-- Modelled from the spec: SDK constant `batchaccount.PoolAllocationModeUserSubscription`
(the SDK is not part of the sources). -/
def PoolAllocationModeUserSubscription : String := "UserSubscription"

/-- Modelled from the spec: SDK constant `batchaccount.AuthenticationModeSharedKey`. -/
def AuthenticationModeSharedKey : String := "SharedKey"

/-- Modelled from the spec: SDK constant
`batchaccount.AutoStorageAuthenticationModeBatchAccountManagedIdentity`. -/
def AutoStorageAuthenticationModeBatchAccountManagedIdentity : String :=
  "BatchAccountManagedIdentity"

/-- Modelled from the spec: SDK constant `batchaccount.PublicNetworkAccessTypeEnabled`. -/
def PublicNetworkAccessTypeEnabled : String := "Enabled"

/-- Modelled from the spec: SDK constant `batchaccount.PublicNetworkAccessTypeDisabled`. -/
def PublicNetworkAccessTypeDisabled : String := "Disabled"

/-- Modelled from the spec: SDK constant `batchaccount.KeySourceMicrosoftPointBatch`. -/
def KeySourceMicrosoftPointBatch : String := "Microsoft.Batch"

/-- Modelled from the spec: SDK constant `batchaccount.KeySourceMicrosoftPointKeyVault`. -/
def KeySourceMicrosoftPointKeyVault : String := "Microsoft.KeyVault"

/-- One `key_vault_reference` block. -/
structure KeyVaultReferenceBlock where
  id : String
  url : String
  deriving DecidableEq, Repr

/-- One `identity` block. -/
structure IdentityBlock where
  type : String
  identity_ids : List String
  deriving DecidableEq, Repr

/-- One `encryption` block. -/
structure EncryptionBlock where
  key_vault_key_id : String
  deriving DecidableEq, Repr

/-- The values the account handlers read from `d`.  A list element is `none` when the Go
`interface{}` element is nil. -/
structure ResourceData where
  id : String
  name : String
  resource_group_name : String
  location : String
  storage_account_id : String
  storage_account_authentication_mode : String
  storage_account_node_identity : String
  allowed_authentication_modes : List String
  pool_allocation_mode : String
  public_network_access_enabled : Bool
  key_vault_reference : List (Option KeyVaultReferenceBlock)
  identity : List (Option IdentityBlock)
  encryption : List (Option EncryptionBlock)
  tags : List (String × String)
  hasChange_allowed_authentication_modes : Bool
  hasChange_storage_account_id : Bool
  deriving DecidableEq, Repr

structure KeyVaultReference where
  Id : String
  Url : String
  deriving DecidableEq, Repr

/-- The expanded identity; `Type_` is the Go field `Type`. -/
structure SystemOrUserAssignedMap where
  Type_ : String
  IdentityIds : List String
  deriving DecidableEq, Repr

structure KeyVaultProperties where
  KeyIdentifier : Option String
  deriving DecidableEq, Repr

structure EncryptionProperties where
  KeySource : Option String
  KeyVaultProperties : Option KeyVaultProperties
  deriving DecidableEq, Repr

structure ComputeNodeIdentityReference where
  ResourceId : Option String
  deriving DecidableEq, Repr

structure AutoStorageBaseProperties where
  StorageAccountId : String
  AuthenticationMode : Option String
  NodeIdentityReference : Option ComputeNodeIdentityReference
  deriving DecidableEq, Repr

structure BatchAccountCreateProperties where
  PoolAllocationMode : Option String
  PublicNetworkAccess : Option String
  Encryption : Option EncryptionProperties
  AllowedAuthenticationModes : Option (List String)
  KeyVaultReference : Option KeyVaultReference
  AutoStorage : Option AutoStorageBaseProperties
  deriving DecidableEq, Repr

structure BatchAccountCreateParameters where
  Location : String
  Properties : BatchAccountCreateProperties
  Identity : SystemOrUserAssignedMap
  Tags : List (String × String)
  deriving DecidableEq, Repr

structure BatchAccountUpdateProperties where
  Encryption : Option EncryptionProperties
  AllowedAuthenticationModes : Option (List String)
  AutoStorage : Option AutoStorageBaseProperties
  deriving DecidableEq, Repr

structure BatchAccountUpdateParameters where
  Properties : BatchAccountUpdateProperties
  Identity : SystemOrUserAssignedMap
  Tags : List (String × String)
  deriving DecidableEq, Repr

/-- The part of the account returned by `client.Get` that the handlers look at. -/
structure AutoStorageProperties where
  NodeIdentityReference : Option ComputeNodeIdentityReference
  AuthenticationMode : Option String
  deriving DecidableEq, Repr

structure BatchAccountProperties where
  AutoStorage : Option AutoStorageProperties
  deriving DecidableEq, Repr

structure BatchAccountModel where
  Properties : Option BatchAccountProperties
  deriving DecidableEq, Repr

/-- The answer of `client.Get`: the returned error, whether the HTTP response is a 404
(`response.WasNotFound`), and the decoded model. -/
structure GetResponse where
  err : Option String
  wasNotFound : Bool
  Model : Option BatchAccountModel
  deriving DecidableEq, Repr

/-- The errors the account handlers return, one per `return fmt.Errorf(...)` site. -/
inductive Error where
  /-- Error `checking for presence of existing %s: %s` -/
  | checkingExisting (e : String)
  /-- Error `tf.ImportAsExistsError("azurerm_batch_account", id.ID())` -/
  | importAsExists
  /-- Error `expanding "identity": %v` -/
  | expandingIdentity (e : String)
  /-- Error `creating %s: %+v`, wrapping the error of `expandBatchAccountKeyVaultReference` -/
  | expandingKeyVaultReference (e : String)
  /-- Error `When setting pool allocation mode to UserSubscription, a Key Vault reference needs to be
  set` -/
  | keyVaultReferenceRequired
  /-- Error `When setting pool allocation mode to UserSubscription,
  allowed_authentication_modes=[StorageKeys] is not allowed.` -/
  | sharedKeyNotAllowed
  /-- Error `storage_account_authentication_mode=BatchAccountManagedIdentity can only be set when
  identity.type is SystemAssigned or UserAssigned` -/
  | managedIdentityRequiresIdentity
  /-- Error `storage_account_authentication_mode is required when storage_account_id` -/
  | authenticationModeRequired
  /-- Error `creating %s: %+v`, wrapping the error of `client.CreateThenPoll` -/
  | creating (e : String)
  /-- The error of `batchaccount.ParseBatchAccountID`. -/
  | parsingId (e : String)
  /-- Error `reading %s: %+v`, wrapping the error of `client.Get` in the update -/
  | reading (e : String)
  /-- Error `updating %s: %+v`, wrapping the error of `client.Update` -/
  | updating (e : String)
  /-- The error returned by the final `resourceBatchAccountRead`. -/
  | read (e : String)
  deriving DecidableEq, Repr

/-- The calls made on the account client, in order. -/
inductive Call where
  | Get
  | CreateThenPoll (parameters : BatchAccountCreateParameters)
  | Update (parameters : BatchAccountUpdateParameters)
  deriving DecidableEq, Repr

/-- Helpers of the provider and of its libraries whose code is not part of the sources; the
handlers are embedded for every behaviour of them. -/
structure Helpers where
  NormalizeLocation : String → String
  ExpandSystemOrUserAssignedMap : List (Option IdentityBlock) → Except String SystemOrUserAssignedMap
  expandBatchAccountKeyVaultReference :
    List (Option KeyVaultReferenceBlock) → Except String (Option KeyVaultReference)
  tagsExpand : List (String × String) → List (String × String)
  ParseBatchAccountID : String → Except String String

/-- The remote side as seen by one run of a handler. -/
structure World where
  IsNewResource : Bool
  Get : GetResponse
  CreateThenPoll : BatchAccountCreateParameters → Option String
  Update : BatchAccountUpdateParameters → Option String
  /-- the result of the final `resourceBatchAccountRead(d, meta)` -/
  Read : Option String

/-- Embedding of `expandEncryption`. -/
def expandEncryption (e : List (Option EncryptionBlock)) : EncryptionProperties :=
  match e with
  | [] => { KeySource := some KeySourceMicrosoftPointBatch, KeyVaultProperties := none }
  | none :: _ => { KeySource := some KeySourceMicrosoftPointBatch, KeyVaultProperties := none }
  | some v :: _ =>
    { KeySource := some KeySourceMicrosoftPointKeyVault
      KeyVaultProperties := some { KeyIdentifier := some v.key_vault_key_id } }

/-- Embedding of `expandAllowedAuthenticationModes`. -/
def expandAllowedAuthenticationModes (input : List String) : Option (List String) :=
  if input.length = 0 then none else some input

/-- The loop of `resourceBatchAccountCreate` over `authModes`: whether some mode equals
`AuthenticationModeSharedKey`. -/
def anySharedKey : List String → Bool
  | [] => false
  | mode :: rest => if mode = AuthenticationModeSharedKey then true else anySharedKey rest

/-- The block `if poolAllocationMode == batchaccount.PoolAllocationModeUserSubscription { ... }`
of `resourceBatchAccountCreate`: the properties after it, or the error it returns. -/
def createUserSubscription (h : Helpers) (d : ResourceData)
    (properties : BatchAccountCreateProperties) : Except Error BatchAccountCreateProperties :=
  if d.pool_allocation_mode = PoolAllocationModeUserSubscription then
    match h.expandBatchAccountKeyVaultReference d.key_vault_reference with
    | .error e => .error (.expandingKeyVaultReference e)
    | .ok none => .error .keyVaultReferenceRequired
    | .ok (some keyVaultReference) =>
      let properties := { properties with KeyVaultReference := some keyVaultReference }
      let (authModes, ok) := GetOkList d.allowed_authentication_modes
      if ok && anySharedKey authModes then .error .sharedKeyNotAllowed
      else .ok properties
  else .ok properties

/-- The properties of the create request as first built by `resourceBatchAccountCreate`
(the literal `batchaccount.BatchAccountCreateProperties{...}` and the adjustment of
`PublicNetworkAccess` that follows it). -/
def createProperties (d : ResourceData) : BatchAccountCreateProperties :=
  { PoolAllocationMode := some d.pool_allocation_mode
    PublicNetworkAccess :=
      if !d.public_network_access_enabled then some PublicNetworkAccessTypeDisabled
      else some PublicNetworkAccessTypeEnabled
    Encryption := some (expandEncryption d.encryption)
    AllowedAuthenticationModes :=
      expandAllowedAuthenticationModes d.allowed_authentication_modes
    KeyVaultReference := none
    AutoStorage := none }

/-- Embedding of `resourceBatchAccountCreate`: how it ends and the client calls it made. -/
def resourceBatchAccountCreate (h : Helpers) (w : World) (d : ResourceData) :
    Outcome Error Unit × List Call :=
  let location := h.NormalizeLocation d.location
  let storageAccountId := d.storage_account_id
  -- if d.IsNewResource() { existing, err := client.Get(ctx, id) ... }
  let existingCheck : Option Error × List Call :=
    if w.IsNewResource then
      if w.Get.err.isSome && !w.Get.wasNotFound then
        (some (.checkingExisting (w.Get.err.getD "")), [.Get])
      else if !w.Get.wasNotFound then
        (some .importAsExists, [.Get])
      else (none, [.Get])
    else (none, [])
  match existingCheck with
  | (some e, calls) => (.error e, calls)
  | (none, calls) =>
    match h.ExpandSystemOrUserAssignedMap d.identity with
    | .error e => (.error (.expandingIdentity e), calls)
    | .ok identity =>
      let properties := createProperties d
      -- if pool allocation mode is UserSubscription, a key vault reference needs to be set
      match createUserSubscription h d properties with
      | .error e => (.error e, calls)
      | .ok properties =>
        let authMode := d.storage_account_authentication_mode
        if authMode = AutoStorageAuthenticationModeBatchAccountManagedIdentity
            && identity.Type_ = "None" then
          (.error .managedIdentityRequiresIdentity, calls)
        else if storageAccountId != "" && authMode = "" then
          (.error .authenticationModeRequired, calls)
        else
          let properties : BatchAccountCreateProperties :=
            if storageAccountId != "" then
              { properties with
                AutoStorage := some
                  { StorageAccountId := storageAccountId
                    AuthenticationMode := some authMode
                    NodeIdentityReference := none } }
            else properties
          let nodeIdentity := d.storage_account_node_identity
          -- parameters.Properties.AutoStorage.NodeIdentityReference = ... (nil dereference
          -- when AutoStorage was not set)
          let withNodeIdentity : Option BatchAccountCreateProperties :=
            if nodeIdentity != "" then
              match properties.AutoStorage with
              | none => none
              | some autoStorage => some
                { properties with
                  AutoStorage := some
                    { autoStorage with
                      NodeIdentityReference := some { ResourceId := some nodeIdentity } } }
            else some properties
          match withNodeIdentity with
          | none => (.panic, calls)
          | some properties =>
            let parameters : BatchAccountCreateParameters :=
              { Location := location
                Properties := properties
                Identity := identity
                Tags := h.tagsExpand d.tags }
            match w.CreateThenPoll parameters with
            | some e => (.error (.creating e), calls ++ [.CreateThenPoll parameters])
            | none =>
              match w.Read with
              | some e => (.error (.read e), calls ++ [.CreateThenPoll parameters])
              | none => (.ok (), calls ++ [.CreateThenPoll parameters])

/-- The block `if d.HasChange("storage_account_id") { ... }` of `resourceBatchAccountUpdate`:
the properties after it (or the error it returns) and the client calls it made. -/
def updateStorageAccountChange (w : World) (d : ResourceData)
    (properties : BatchAccountUpdateProperties) :
    Except Error BatchAccountUpdateProperties × List Call :=
  if d.hasChange_storage_account_id then
    let (v, ok) := GetOkString d.storage_account_id
    if ok then
      (.ok { properties with
             AutoStorage := some
               { StorageAccountId := v, AuthenticationMode := none
                 NodeIdentityReference := none } }, [])
    else
      -- remove the storage account from the batch account
      match w.Get.err with
      | some e => (.error (.reading e), [.Get])
      | none =>
        let nodeIdentityReference : Option ComputeNodeIdentityReference :=
          match w.Get.Model with
          | none => none
          | some model =>
            match model.Properties with
            | none => none
            | some props =>
              match props.AutoStorage with
              | none => none
              | some autoStorage => autoStorage.NodeIdentityReference
        (.ok { properties with
               AutoStorage := some
                 { StorageAccountId := "", AuthenticationMode := none
                   NodeIdentityReference := nodeIdentityReference } }, [.Get])
  else (.ok properties, [])

/-- The properties of the update request as first built by `resourceBatchAccountUpdate`: the
literal `batchaccount.BatchAccountUpdateProperties{...}` and the block
`if d.HasChange("allowed_authentication_modes") { ... }`. -/
def updateProperties (d : ResourceData) : BatchAccountUpdateProperties :=
  let properties : BatchAccountUpdateProperties :=
    { Encryption := some (expandEncryption d.encryption), AllowedAuthenticationModes := none
      AutoStorage := none }
  if d.hasChange_allowed_authentication_modes then
    if d.allowed_authentication_modes.length = 0 then
      -- remove all modes need explicit set it to empty array not nil
      { properties with AllowedAuthenticationModes := some [] }
    else
      { properties with
        AllowedAuthenticationModes :=
          expandAllowedAuthenticationModes d.allowed_authentication_modes }
  else properties

/-- Embedding of `resourceBatchAccountUpdate`: how it ends and the client calls it made. -/
def resourceBatchAccountUpdate (h : Helpers) (w : World) (d : ResourceData) :
    Outcome Error Unit × List Call :=
  match h.ParseBatchAccountID d.id with
  | .error e => (.error (.parsingId e), [])
  | .ok _ =>
    match h.ExpandSystemOrUserAssignedMap d.identity with
    | .error e => (.error (.expandingIdentity e), [])
    | .ok identity =>
      let properties := updateProperties d
      match updateStorageAccountChange w d properties with
      | (.error e, calls) => (.error e, calls)
      | (.ok properties, calls) =>
        let authMode := d.storage_account_authentication_mode
        if authMode = AutoStorageAuthenticationModeBatchAccountManagedIdentity
            && identity.Type_ = "None" then
          (.error .managedIdentityRequiresIdentity, calls)
        else
          let storageAccountId := d.storage_account_id
          let properties : BatchAccountUpdateProperties :=
            if storageAccountId != "" then
              { properties with
                AutoStorage := some
                  { StorageAccountId := storageAccountId
                    AuthenticationMode := some authMode
                    NodeIdentityReference := none } }
            else properties
          let nodeIdentity := d.storage_account_node_identity
          -- parameters.Properties.AutoStorage.NodeIdentityReference = ... (nil dereference
          -- when AutoStorage was not set)
          let withNodeIdentity : Option BatchAccountUpdateProperties :=
            if nodeIdentity != "" then
              match properties.AutoStorage with
              | none => none
              | some autoStorage => some
                { properties with
                  AutoStorage := some
                    { autoStorage with
                      NodeIdentityReference := some { ResourceId := some nodeIdentity } } }
            else some properties
          match withNodeIdentity with
          | none => (.panic, calls)
          | some properties =>
            let parameters : BatchAccountUpdateParameters :=
              { Properties := properties, Identity := identity, Tags := h.tagsExpand d.tags }
            match w.Update parameters with
            | some e => (.error (.updating e), calls ++ [.Update parameters])
            | none =>
              match w.Read with
              | some e => (.error (.read e), calls ++ [.Update parameters])
              | none => (.ok (), calls ++ [.Update parameters])

/-- Whether a call is `CreateThenPoll`. -/
def Call.isCreateThenPoll : Call → Bool
  | .CreateThenPoll _ => true
  | _ => false

/-- Whether a call is `Update`. -/
def Call.isUpdate : Call → Bool
  | .Update _ => true
  | _ => false

/-- Modelled from the spec: `expandBatchAccountKeyVaultReference` is defined in a file of the
provider that is not part of the sources.  A key vault reference is required: without a block
(an empty list, or a nil first element, which the schema excludes) the expansion gives an
error, otherwise the first block gives the reference with its `id` and `url`. -/
def expandBatchAccountKeyVaultReference (list : List (Option KeyVaultReferenceBlock)) :
    Except String (Option KeyVaultReference) :=
  match list with
  | [] => .error "key vault reference should be defined"
  | none :: _ => .error "key vault reference should be defined"
  | some keyVaultRef :: _ => .ok (some { Id := keyVaultRef.id, Url := keyVaultRef.url })

/-- An example configuration: a user-subscription account without key vault reference. -/
def exampleData : ResourceData :=
  { id := "", name := "acc", resource_group_name := "rg", location := "westeurope"
    storage_account_id := "", storage_account_authentication_mode := ""
    storage_account_node_identity := "", allowed_authentication_modes := []
    pool_allocation_mode := "UserSubscription", public_network_access_enabled := true
    key_vault_reference := [], identity := [], encryption := [], tags := []
    hasChange_allowed_authentication_modes := false, hasChange_storage_account_id := false }

/-- Example helpers: identity expansion returns the first block unchanged (`None` without a
block), the key vault reference is expanded as modelled above. -/
def exampleHelpers : Helpers :=
  { NormalizeLocation := fun s => s
    ExpandSystemOrUserAssignedMap := fun l =>
      match l with
      | some b :: _ => .ok { Type_ := b.type, IdentityIds := b.identity_ids }
      | _ => .ok { Type_ := "None", IdentityIds := [] }
    expandBatchAccountKeyVaultReference := expandBatchAccountKeyVaultReference
    tagsExpand := fun t => t
    ParseBatchAccountID := fun s => .ok s }

/-- An example remote side: the account does not exist yet and every call succeeds. -/
def exampleWorld : World :=
  { IsNewResource := true
    Get := { err := some "not found", wasNotFound := true, Model := none }
    CreateThenPoll := fun _ => none
    Update := fun _ => none
    Read := none }

/-- A user-subscription configuration with a key vault reference that allows the shared-key
authentication mode. -/
def sharedKeyData : ResourceData :=
  { exampleData with
    key_vault_reference := [some { id := "/subscriptions/s/vault", url := "https://v.example" }]
    allowed_authentication_modes := ["AAD", "SharedKey"] }

/-- A remote side on which the account already exists: `client.Get` succeeds with a found
response. -/
def existingWorld : World :=
  { exampleWorld with Get := { err := none, wasNotFound := false, Model := none } }

/-- A configuration that uses the managed identity of the account for the storage account
without any identity block. -/
def managedIdentityData : ResourceData :=
  { exampleData with
    pool_allocation_mode := "BatchService"
    storage_account_id := "/subscriptions/s/storage"
    storage_account_authentication_mode := "BatchAccountManagedIdentity" }

end BatchAccount

/-! ## Batch pool (`internal/services/batch/batch_pool_resource.go`) -/

namespace BatchPool

/-- Modelled from the spec: SDK constant `batch.AllocationStateSteady`. -/
def AllocationStateSteady : String := "Steady"

/-- Modelled from the spec: constant `identity.TypeUserAssigned` of the helpers library. -/
def TypeUserAssigned : String := "UserAssigned"

/-- Modelled from the spec: constant `identity.TypeSystemAssignedUserAssigned`. -/
def TypeSystemAssignedUserAssigned : String := "SystemAssigned, UserAssigned"

/-- The Go conversion `int32(x)` of an `int`: the low 32 bits, read as a signed number. -/
def toInt32 (x : Int) : Int :=
  (x + 2 ^ 31) % 2 ^ 32 - 2 ^ 31

structure AutoUserSpecification where
  Scope : String
  ElevationLevel : String
  deriving DecidableEq, Repr

structure UserIdentity where
  UserName : Option String
  AutoUser : Option AutoUserSpecification
  deriving DecidableEq, Repr

structure ResourceFile where
  AutoStorageContainerName : Option String
  StorageContainerURL : Option String
  HTTPURL : Option String
  BlobPrefix : Option String
  FilePath : Option String
  FileMode : Option String
  deriving DecidableEq, Repr

structure StartTask where
  CommandLine : Option String
  ResourceFiles : Option (List ResourceFile)
  UserIdentity : Option UserIdentity
  deriving DecidableEq, Repr

structure AutoScaleSettings where
  Formula : Option String
  EvaluationInterval : Option String
  deriving DecidableEq, Repr

structure FixedScaleSettings where
  ResizeTimeout : Option String
  TargetDedicatedNodes : Option Int
  TargetLowPriorityNodes : Option Int
  NodeDeallocationOption : String
  deriving DecidableEq, Repr

structure ScaleSettings where
  FixedScale : Option FixedScaleSettings
  AutoScale : Option AutoScaleSettings
  deriving DecidableEq, Repr

/-- The pool identity; `UserAssignedIdentities` lists the keys of the Go map (its values are
empty structs). -/
structure PoolIdentity where
  Type_ : String
  UserAssignedIdentities : Option (List String)
  deriving DecidableEq, Repr

/-- The pool properties the handlers of this file touch.  The values built by expand helpers
that are not part of the sources are kept as the opaque strings those helpers return here. -/
structure PoolProperties where
  AllocationState : String
  ScaleSettings : Option ScaleSettings
  StartTask : Option StartTask
  TaskSchedulingPolicy : Option String
  UserAccounts : Option String
  Certificates : Option String
  Metadata : Option String
  MountConfiguration : Option String
  deriving DecidableEq, Repr

structure Pool where
  PoolProperties : Option PoolProperties
  Identity : Option PoolIdentity
  deriving DecidableEq, Repr

/-- One `auto_scale` block. -/
structure AutoScaleBlock where
  evaluation_interval : String
  formula : String
  deriving DecidableEq, Repr

/-- One `fixed_scale` block. -/
structure FixedScaleBlock where
  node_deallocation_method : String
  target_dedicated_nodes : Int
  target_low_priority_nodes : Int
  resize_timeout : String
  deriving DecidableEq, Repr

/-- The errors of `validateUserIdentity`. -/
inductive UserIdentityError where
  /-- Error `user_identity block needs to be specified` -/
  | blockNeeded
  /-- Error `auto_user or user_name needs to be specified in the user_identity block` -/
  | autoUserOrUserNameNeeded
  /-- Error `auto_user and user_name cannot be specified in the user_identity at the same time` -/
  | bothSpecified
  deriving DecidableEq, Repr

/-- Embedding of `validateUserIdentity`; `none` is the Go `nil` error. -/
def validateUserIdentity (userIdentity : Option UserIdentity) : Option UserIdentityError :=
  match userIdentity with
  | none => some .blockNeeded
  | some userIdentity =>
    if userIdentity.AutoUser = none ∧ userIdentity.UserName = none then
      some .autoUserOrUserNameNeeded
    else if userIdentity.AutoUser ≠ none ∧ userIdentity.UserName ≠ none
        ∧ userIdentity.UserName ≠ some "" then
      some .bothSpecified
    else none

/-- The errors of `validateBatchPoolCrossFieldRules`. -/
inductive CrossFieldError where
  /-- Error `exactly one of auto_storage_container_name, storage_container_url and http_url must be
  specified` -/
  | exactlyOneSource
  /-- Error `auto_storage_container_name or storage_container_url must be specified when using
  blob_prefix` -/
  | blobPrefixNeedsContainer
  /-- Error `file_path must be specified when using http_url` -/
  | filePathNeeded
  deriving DecidableEq, Repr

/-- The body of the loop of `validateBatchPoolCrossFieldRules` for one resource file: the error
it returns, or `none` when the loop goes on. -/
def validateResourceFile (referenceFile : ResourceFile) : Option CrossFieldError :=
  let sourceCount : Nat := 0
  let sourceCount := if referenceFile.AutoStorageContainerName ≠ none then sourceCount + 1
    else sourceCount
  let sourceCount := if referenceFile.StorageContainerURL ≠ none then sourceCount + 1
    else sourceCount
  let sourceCount := if referenceFile.HTTPURL ≠ none then sourceCount + 1 else sourceCount
  if sourceCount ≠ 1 then some .exactlyOneSource
  else if referenceFile.BlobPrefix ≠ none ∧
      (referenceFile.AutoStorageContainerName = none ∧ referenceFile.StorageContainerURL = none)
    then some .blobPrefixNeedsContainer
  else if referenceFile.HTTPURL ≠ none ∧ referenceFile.FilePath = none then some .filePathNeeded
  else none

/-- The loop of `validateBatchPoolCrossFieldRules` over the resource files: it returns at the
first file that breaks a rule. -/
def validateResourceFiles : List ResourceFile → Option CrossFieldError
  | [] => none
  | referenceFile :: rest =>
    match validateResourceFile referenceFile with
    | some e => some e
    | none => validateResourceFiles rest

/-- Embedding of `validateBatchPoolCrossFieldRules`.  `pool.StartTask` is a field of the embedded
`*PoolProperties`, so a pool without properties makes the function panic. -/
def validateBatchPoolCrossFieldRules (pool : Pool) : Outcome CrossFieldError Unit :=
  match pool.PoolProperties with
  | none => .panic
  | some props =>
    match props.StartTask with
    | none => .ok ()
    | some startTask =>
      match startTask.ResourceFiles with
      | none => .ok ()
      | some resourceFiles =>
        match validateResourceFiles resourceFiles with
        | some e => .error e
        | none => .ok ()

/-- The three rules for one resource file, in the words of the documentation of the API:
exactly one of the three sources is set, `blob_prefix` only together with a container source,
and `file_path` whenever `http_url` is set. -/
def ResourceFile.satisfiesRules (f : ResourceFile) : Prop :=
  ((f.AutoStorageContainerName ≠ none ∧ f.StorageContainerURL = none ∧ f.HTTPURL = none) ∨
    (f.AutoStorageContainerName = none ∧ f.StorageContainerURL ≠ none ∧ f.HTTPURL = none) ∨
    (f.AutoStorageContainerName = none ∧ f.StorageContainerURL = none ∧ f.HTTPURL ≠ none)) ∧
  (f.BlobPrefix ≠ none → f.AutoStorageContainerName ≠ none ∨ f.StorageContainerURL ≠ none) ∧
  (f.HTTPURL ≠ none → f.FilePath ≠ none)

/-- The errors of `expandBatchPoolScaleSettings`. -/
inductive ScaleSettingsError where
  /-- Error `auto_scale block or fixed_scale block need to be specified` -/
  | blockNeeded
  /-- Error `auto_scale and fixed_scale blocks cannot be specified at the same time` -/
  | bothSpecified
  /-- Error `when scale mode is Auto, auto_scale block is required` -/
  | autoScaleRequired
  /-- Error `when scale mode is Fixed, fixed_scale block is required` -/
  | fixedScaleRequired
  deriving DecidableEq, Repr

/-- Embedding of `expandBatchPoolScaleSettings`, on the `auto_scale` and `fixed_scale` lists of `d`.  The
type assertion on a nil first element panics. -/
def expandBatchPoolScaleSettings (auto_scale : List (Option AutoScaleBlock))
    (fixed_scale : List (Option FixedScaleBlock)) : Outcome ScaleSettingsError ScaleSettings :=
  let scaleSettings : ScaleSettings := { FixedScale := none, AutoScale := none }
  let (autoScaleValue, autoScaleOk) := GetOkList auto_scale
  let (fixedScaleValue, fixedScaleOk) := GetOkList fixed_scale
  if !autoScaleOk && !fixedScaleOk then .error .blockNeeded
  else if autoScaleOk && fixedScaleOk then .error .bothSpecified
  else if autoScaleOk then
    match autoScaleValue with
    | [] => .error .autoScaleRequired
    | none :: _ => .panic
    | some autoScaleSettings :: _ =>
      .ok { scaleSettings with
            AutoScale := some
              { EvaluationInterval := some autoScaleSettings.evaluation_interval
                Formula := some autoScaleSettings.formula } }
  else if fixedScaleOk then
    match fixedScaleValue with
    | [] => .error .fixedScaleRequired
    | none :: _ => .panic
    | some fixedScaleSettings :: _ =>
      .ok { scaleSettings with
            FixedScale := some
              { NodeDeallocationOption := fixedScaleSettings.node_deallocation_method
                ResizeTimeout := some fixedScaleSettings.resize_timeout
                TargetDedicatedNodes := some (toInt32 fixedScaleSettings.target_dedicated_nodes)
                TargetLowPriorityNodes :=
                  some (toInt32 fixedScaleSettings.target_low_priority_nodes) } }
  else .ok scaleSettings

/-- The expanded identity of the helpers library, as `identity.ExpandUserAssignedMap` returns
it; `IdentityIds` lists the keys of the Go map. -/
structure UserAssignedMap where
  Type_ : String
  IdentityIds : List String
  deriving DecidableEq, Repr

/-- Embedding of `expandBatchPoolIdentity`, on the result of `identity.ExpandUserAssignedMap(input)`. -/
def expandBatchPoolIdentity (expanded : Except String UserAssignedMap) :
    Except String PoolIdentity :=
  match expanded with
  | .error err => .error err
  | .ok expanded =>
    let out : PoolIdentity := { Type_ := expanded.Type_, UserAssignedIdentities := none }
    if expanded.Type_ = TypeUserAssigned ∨ expanded.Type_ = TypeSystemAssignedUserAssigned then
      .ok { out with UserAssignedIdentities := some expanded.IdentityIds }
    else .ok out

/-- The values `resourceBatchPoolUpdate` reads from `d`.  `start_task_ok` is the flag returned
by `d.GetOk("start_task")`. -/
structure ResourceData where
  id : String
  stop_pending_resize_operation : Bool
  auto_scale : List (Option AutoScaleBlock)
  fixed_scale : List (Option FixedScaleBlock)
  start_task_ok : Bool
  hasChange_metadata : Bool
  deriving DecidableEq, Repr

/-- The results, on the resource data, of the helpers of the provider and of its libraries
whose code is not part of the sources.  A pair is a returned value with the returned error. -/
structure Expanded where
  /-- Result of `parse.PoolID(d.Id())` -/
  PoolID : Except String String
  /-- Result of `identity.ExpandUserAssignedMap(d.Get("identity"))` -/
  ExpandUserAssignedMap : Except String UserAssignedMap
  /-- Result of `ExpandBatchPoolTaskSchedulingPolicy(d)` -/
  ExpandBatchPoolTaskSchedulingPolicy : Option String × Option String
  /-- Result of `ExpandBatchPoolUserAccounts(d)` -/
  ExpandBatchPoolUserAccounts : Option String × Option String
  /-- Result of `ExpandBatchPoolStartTask(startTaskList)` -/
  ExpandBatchPoolStartTask : Except String (Option StartTask)
  /-- Result of `ExpandBatchPoolCertificateReferences(certificates)` -/
  ExpandBatchPoolCertificateReferences : Except String (Option String)
  /-- Result of `ExpandBatchMetaData(metaDataRaw)` -/
  ExpandBatchMetaData : Option String
  /-- Result of `ExpandBatchPoolMountConfigurations(d)` -/
  ExpandBatchPoolMountConfigurations : Option String × Option String

/-- A response of `client.Get`: the returned error, or the pool. -/
abbrev GetResponse := Except String Pool

/-- The allocation state carried by a response, when it is a pool with properties. -/
def GetResponse.allocationState : GetResponse → Option String
  | .ok pool => pool.PoolProperties.map (fun props => props.AllocationState)
  | .error _ => none

/-- The errors of the pool handlers, one per `return` site. -/
inductive Error where
  /-- The error of `parse.PoolID`. -/
  | parsingId (e : String)
  /-- Error `retrieving %s: %+v` -/
  | retrieving (e : String)
  /-- Error `updating %s because of pending resize operation. Set flag stop_pending_resize_operation
  to true to force update` -/
  | pendingResizeOperation
  /-- Error `stopping resize operation for %s: %+v` -/
  | stoppingResize (e : String)
  /-- Error `retrieving the Batch pool %q (Resource Group %q): %+v`, returned by
  `waitForBatchPoolPendingResizeOperation` -/
  | retrievingPool (e : String)
  /-- Error `waiting for %s` -/
  | waiting
  /-- Error `expanding "identity": %v` -/
  | expandingIdentity (e : String)
  /-- Error `expanding scale settings: %+v` -/
  | expandingScaleSettings (e : ScaleSettingsError)
  /-- Error `updating %s: %+v`, wrapping the error of `ExpandBatchPoolStartTask` -/
  | expandingStartTask (e : String)
  /-- Error `creating %s: %+v`, wrapping the error of `validateUserIdentity` -/
  | userIdentity (e : UserIdentityError)
  /-- Error `expanding certificate: %+v` -/
  | expandingCertificate (e : String)
  /-- The error of `validateBatchPoolCrossFieldRules`. -/
  | crossField (e : CrossFieldError)
  /-- Error `updating %s: %+v`, wrapping the error of `client.Update` -/
  | updating (e : String)
  /-- The error returned by the final `resourceBatchPoolRead`. -/
  | read (e : String)
  deriving DecidableEq, Repr

/-- The calls made on the pool client, in order. -/
inductive Call where
  | Get
  | StopResize
  | Update (parameters : Pool)
  deriving DecidableEq, Repr

/-- Whether a call is `StopResize`. -/
def Call.isStopResize : Call → Bool
  | .StopResize => true
  | _ => false

/-- Whether a call is `Update`. -/
def Call.isUpdate : Call → Bool
  | .Update _ => true
  | _ => false

/-- The remote side as seen by one run of a handler: the answers of the successive `Get`
calls, in order, and the answers of the other calls. -/
structure World where
  Get : List GetResponse
  StopResize : Option String
  Update : Pool → Except String Pool
  /-- the result of the final `resourceBatchPoolRead(d, meta)` -/
  Read : Option String

/-- Embedding of `waitForBatchPoolPendingResizeOperation`, on the answers of its successive `Get` calls:
how it ends, the calls it made, and the answers left.  The result is `none` when the answers
end while the loop is still polling. -/
def waitForBatchPoolPendingResizeOperation :
    List GetResponse → Option (Outcome Error Unit) × List Call × List GetResponse
  | [] => (none, [], [])
  | resp :: rest =>
    match resp with
    | .error err => (some (.error (.retrievingPool err)), [.Get], rest)
    | .ok resp =>
      match resp.PoolProperties with
      | none => (some .panic, [.Get], rest)
      | some props =>
        let isSteady := props.AllocationState = AllocationStateSteady
        if isSteady then (some (.ok ()), [.Get], rest)
        else
          let (r, calls, left) := waitForBatchPoolPendingResizeOperation rest
          (r, .Get :: calls, left)

/-- The part of `resourceBatchPoolUpdate` that builds the request, from
`parameters := batch.Pool{...}` to the mount configuration: the pool to send, or the error
returned.  It makes no client call. -/
def updateParameters (x : Expanded) (d : ResourceData) : Outcome Error Pool :=
  let properties : PoolProperties :=
    { AllocationState := "", ScaleSettings := none, StartTask := none
      TaskSchedulingPolicy := none, UserAccounts := none, Certificates := none
      Metadata := none, MountConfiguration := none }
  match expandBatchPoolIdentity x.ExpandUserAssignedMap with
  | .error err => .error (.expandingIdentity err)
  | .ok identity =>
    match expandBatchPoolScaleSettings d.auto_scale d.fixed_scale with
    | .panic => .panic
    | .error err => .error (.expandingScaleSettings err)
    | .ok scaleSettings =>
      let properties := { properties with ScaleSettings := some scaleSettings }
      let properties :=
        { properties with TaskSchedulingPolicy := x.ExpandBatchPoolTaskSchedulingPolicy.1 }
      let properties := { properties with UserAccounts := x.ExpandBatchPoolUserAccounts.1 }
      let startTask : Outcome Error PoolProperties :=
        if d.start_task_ok then
          match x.ExpandBatchPoolStartTask with
          | .error startTaskErr => .error (.expandingStartTask startTaskErr)
          | .ok none => .panic
          | .ok (some startTask) =>
            -- start task should have a user identity defined
            match validateUserIdentity startTask.UserIdentity with
            | some userIdentityError => .error (.userIdentity userIdentityError)
            | none => .ok { properties with StartTask := some startTask }
        else .ok properties
      match startTask with
      | .panic => .panic
      | .error err => .error err
      | .ok properties =>
        match x.ExpandBatchPoolCertificateReferences with
        | .error err => .error (.expandingCertificate err)
        | .ok certificateReferences =>
          let properties := { properties with Certificates := certificateReferences }
          match validateBatchPoolCrossFieldRules
              { PoolProperties := some properties, Identity := some identity } with
          | .panic => .panic
          | .error err => .error (.crossField err)
          | .ok _ =>
            let properties :=
              if d.hasChange_metadata then
                { properties with Metadata := x.ExpandBatchMetaData }
              else properties
            let properties :=
              { properties with
                MountConfiguration := x.ExpandBatchPoolMountConfigurations.1 }
            .ok { PoolProperties := some properties, Identity := some identity }

/-- The part of `resourceBatchPoolUpdate` from `client.Update` on: sending the request,
waiting for the steady state when the result is not steady, and the final read. -/
def sendUpdate (w : World) (parameters : Pool) (responses : List GetResponse) :
    Option (Outcome Error Unit) × List Call :=
  match w.Update parameters with
  | .error err => (some (.error (.updating err)), [.Update parameters])
  | .ok result =>
    let notSteady : Bool :=
      match result.PoolProperties with
      | none => false
      | some props => props.AllocationState != AllocationStateSteady
    let read : Option (Outcome Error Unit) :=
      match w.Read with
      | some err => some (.error (.read err))
      | none => some (.ok ())
    if notSteady then
      match waitForBatchPoolPendingResizeOperation responses with
      | (none, calls, _) => (none, .Update parameters :: calls)
      | (some .panic, calls, _) => (some .panic, .Update parameters :: calls)
      | (some (.error _), calls, _) => (some (.error .waiting), .Update parameters :: calls)
      | (some (.ok _), calls, _) => (read, .Update parameters :: calls)
    else (read, [.Update parameters])

/-- Embedding of `resourceBatchPoolUpdate`: how it ends and the client calls it made.  The result is `none`
when the answers of `Get` end while the handler is still polling. -/
def resourceBatchPoolUpdate (x : Expanded) (w : World) (d : ResourceData) :
    Option (Outcome Error Unit) × List Call :=
  match x.PoolID with
  | .error err => (some (.error (.parsingId err)), [])
  | .ok _ =>
    match w.Get with
    | [] => (none, [])
    | .error err :: _ => (some (.error (.retrieving err)), [.Get])
    | .ok resp :: responses =>
      match resp.PoolProperties with
      | none => (some .panic, [.Get])
      | some props =>
        -- the block `if resp.PoolProperties.AllocationState != batch.AllocationStateSteady`:
        -- the result it returns, or the calls it made and the answers left
        let pending : (Option (Outcome Error Unit) × List Call) ⊕
            (List Call × List GetResponse) :=
          if props.AllocationState ≠ AllocationStateSteady then
            let stopPendingResizeOperation := d.stop_pending_resize_operation
            if !stopPendingResizeOperation then
              .inl (some (.error .pendingResizeOperation), [.Get])
            else
              match w.StopResize with
              | some err => .inl (some (.error (.stoppingResize err)), [.Get, .StopResize])
              | none =>
                -- waiting for the pool to be in steady state
                match waitForBatchPoolPendingResizeOperation responses with
                | (none, calls, _) => .inl (none, [.Get, .StopResize] ++ calls)
                | (some .panic, calls, _) => .inl (some .panic, [.Get, .StopResize] ++ calls)
                | (some (.error _), calls, _) =>
                  .inl (some (.error .waiting), [.Get, .StopResize] ++ calls)
                | (some (.ok _), calls, left) => .inr ([.Get, .StopResize] ++ calls, left)
          else .inr ([.Get], responses)
        match pending with
        | .inl result => result
        | .inr (calls, responses) =>
          match updateParameters x d with
          | .panic => (some .panic, calls)
          | .error err => (some (.error err), calls)
          | .ok parameters =>
            let (result, sent) := sendUpdate w parameters responses
            (result, calls ++ sent)

/-- The claim's reading of a well specified user identity: exactly one of `AutoUser` and
`UserName` is non-nil. -/
def UserIdentity.exactlyOneDefined (u : UserIdentity) : Prop :=
  (u.AutoUser ≠ none ∧ u.UserName = none) ∨ (u.AutoUser = none ∧ u.UserName ≠ none)

/-- Example pool properties: a start task with one resource file fetched from `http_url`. -/
def exampleProperties : PoolProperties :=
  { AllocationState := "", ScaleSettings := none
    StartTask := some
      { CommandLine := some "echo"
        ResourceFiles := some
          [{ AutoStorageContainerName := none, StorageContainerURL := none
             HTTPURL := some "https://example.com/a", BlobPrefix := none
             FilePath := some "a", FileMode := none }]
        UserIdentity := none }
    TaskSchedulingPolicy := none, UserAccounts := none, Certificates := none
    Metadata := none, MountConfiguration := none }

/-- An example pool with the example properties. -/
def examplePool : Pool :=
  { PoolProperties := some exampleProperties, Identity := none }

/-- A user identity with an `auto_user` block and an empty `user_name`. -/
def autoUserWithEmptyUserName : UserIdentity :=
  { UserName := some "", AutoUser := some { Scope := "Task", ElevationLevel := "NonAdmin" } }

/-- An example `fixed_scale` block. -/
def exampleFixedScale : FixedScaleBlock :=
  { node_deallocation_method := "Requeue", target_dedicated_nodes := 2000
    target_low_priority_nodes := 0, resize_timeout := "PT15M" }

/-- A pool response with the given allocation state. -/
def poolInState (state : String) : GetResponse :=
  .ok { PoolProperties := some { exampleProperties with AllocationState := state }
        Identity := none }

/-- Example results of the expand helpers: everything expands without error, no identity. -/
def exampleExpanded : Expanded :=
  { PoolID := .ok "pool"
    ExpandUserAssignedMap := .ok { Type_ := "None", IdentityIds := [] }
    ExpandBatchPoolTaskSchedulingPolicy := (none, none)
    ExpandBatchPoolUserAccounts := (none, none)
    ExpandBatchPoolStartTask := .ok none
    ExpandBatchPoolCertificateReferences := .ok none
    ExpandBatchMetaData := none
    ExpandBatchPoolMountConfigurations := (none, none) }

/-- An example remote side: the pool is resizing, then stopping, then steady; `StopResize`
and `Update` succeed and the updated pool is steady. -/
def exampleWorld : World :=
  { Get := [poolInState "Resizing", poolInState "Stopping", poolInState "Steady"]
    StopResize := none
    Update := fun parameters => .ok
      { parameters with
        PoolProperties := some { exampleProperties with AllocationState := "Steady" } }
    Read := none }

/-- Example resource data: a fixed scale pool whose update may stop a pending resize. -/
def exampleData : ResourceData :=
  { id := "pool", stop_pending_resize_operation := true, auto_scale := []
    fixed_scale := [some exampleFixedScale], start_task_ok := false
    hasChange_metadata := false }

/-- Example answers of `Get` while waiting: resizing, then steady. -/
def exampleResponses : List GetResponse :=
  [poolInState "Resizing", poolInState "Steady"]

/-- The request built by the update handler for the example data. -/
def exampleParameters : Pool :=
  { PoolProperties := some
      { AllocationState := ""
        ScaleSettings := some
          { FixedScale := some
              { ResizeTimeout := some "PT15M", TargetDedicatedNodes := some 2000
                TargetLowPriorityNodes := some 0, NodeDeallocationOption := "Requeue" }
            AutoScale := none }
        StartTask := none, TaskSchedulingPolicy := none, UserAccounts := none
        Certificates := none, Metadata := none, MountConfiguration := none }
    Identity := some { Type_ := "None", UserAssignedIdentities := none } }

/-- Example answers of `Get` while waiting: a pool without pool properties, then a steady
pool. -/
def nilPropertiesResponses : List GetResponse :=
  [.ok { PoolProperties := none, Identity := none }, poolInState "Steady"]

end BatchPool

/-! ## Service Bus namespace (`internal/services/servicebus/servicebus_namespace_resource.go`) -/

namespace ServiceBus

/-- Modelled from the spec: SDK constant `servicebus.SkuNamePremium`. -/
def SkuNamePremium : String := "Premium"

/-- Modelled from the spec: SDK constant `servicebus.ManagedServiceIdentityTypeNone`. -/
def ManagedServiceIdentityTypeNone : String := "None"

/-- Modelled from the spec: SDK constant `servicebus.ManagedServiceIdentityTypeUserAssigned`. -/
def ManagedServiceIdentityTypeUserAssigned : String := "UserAssigned"

/-- Modelled from the spec: SDK constant
`servicebus.ManagedServiceIdentityTypeSystemAssignedUserAssigned`. -/
def ManagedServiceIdentityTypeSystemAssignedUserAssigned : String :=
  "SystemAssigned, UserAssigned"

/-- The Go function `strings.EqualFold`, for the use made of it here: comparison with an ASCII
word none of whose letters has a non-ASCII case variant, where it is equality up to the case of
the ASCII letters. -/
def EqualFold (s t : String) : Bool :=
  s.data.map Char.toLower == t.data.map Char.toLower

/-- The Go conversion `int32(x)` of an `int`: the low 32 bits, read as a signed number. -/
def toInt32 (x : Int) : Int :=
  (x + 2 ^ 31) % 2 ^ 32 - 2 ^ 31

/-- One `identity` block. -/
structure IdentityBlock where
  type : String
  identity_ids : List String
  deriving DecidableEq, Repr

/-- The namespace identity.  `UserAssignedIdentities` holds the keys of the Go map, whose values
are all empty structs; `none` is the nil map. -/
structure Identity where
  Type_ : String
  UserAssignedIdentities : Option (List String)
  deriving DecidableEq, Repr

/-- The assignment `m[key] = &servicebus.UserAssignedIdentity{}` on the key list of a map. -/
def mapSet (m : List String) (key : String) : List String :=
  if key ∈ m then m else m ++ [key]

structure SBSku where
  Name : String
  Tier : String
  Capacity : Option Int
  deriving DecidableEq, Repr

structure SBNamespaceProperties where
  ZoneRedundant : Option Bool
  deriving DecidableEq, Repr

structure SBNamespace where
  Location : Option String
  Sku : Option SBSku
  SBNamespaceProperties : Option SBNamespaceProperties
  Identity : Option Identity
  Tags : List (String × String)
  deriving DecidableEq, Repr

/-- The values `resourceServiceBusNamespaceCreateUpdate` reads from `d`.  `capacity` is the
`interface{}` returned by `d.Get("capacity")`, `none` when it is nil. -/
structure ResourceData where
  name : String
  resource_group_name : String
  location : String
  sku : String
  capacity : Option Int
  zone_redundant : Bool
  identity : List (Option IdentityBlock)
  tags : List (String × String)
  deriving DecidableEq, Repr

/-- The errors of the namespace handler, one per `return` site. -/
inductive Error where
  /-- Error `checking for presence of existing %s: %+v` -/
  | checkingExisting (e : String)
  /-- Error `tf.ImportAsExistsError("azurerm_servicebus_namespace", resourceId.ID())` -/
  | importAsExists
  /-- Error `identity_ids can only be specified when type includes UserAssigned`, wrapped by
  `expanding identity: %+v` in the handler -/
  | identityIdsNotAllowed
  /-- Error `Service Bus SKU %q only supports capacity of 0` -/
  | capacityMustBeZero
  /-- Error `Service Bus SKU %q only supports capacity of 1, 2, 4, 8 or 16` -/
  | capacityMustBePositive
  /-- Error `creating/updating %s: %+v` -/
  | creatingUpdating (e : String)
  /-- Error `waiting for create/update of %s: %+v` -/
  | waiting (e : String)
  /-- The error returned by the final `resourceServiceBusNamespaceRead`. -/
  | read (e : String)
  deriving DecidableEq, Repr

/-- The calls made on the namespaces client, in order. -/
inductive Call where
  | Get
  | CreateOrUpdate (parameters : SBNamespace)
  deriving DecidableEq, Repr

/-- Whether a call is `CreateOrUpdate`. -/
def Call.isCreateOrUpdate : Call → Bool
  | .CreateOrUpdate _ => true
  | _ => false

/-- Helpers whose code is not part of the sources. -/
structure Helpers where
  NormalizeLocation : String → String
  tagsExpand : List (String × String) → List (String × String)

/-- The remote side as seen by one run of the handler. -/
structure World where
  IsNewResource : Bool
  /-- the error of `client.Get` -/
  GetErr : Option String
  /-- Result of `utils.ResponseWasNotFound(existing.Response)` -/
  GetWasNotFound : Bool
  CreateOrUpdate : SBNamespace → Option String
  /-- the error of `future.WaitForCompletionRef` -/
  WaitForCompletionRef : Option String
  /-- the result of the final `resourceServiceBusNamespaceRead(d, meta)` -/
  Read : Option String

/-- The loop of `expandServiceBusNamespaceIdentity` filling the map. -/
def setAll (m : List String) : List String → List String
  | [] => m
  | id :: rest => setAll (mapSet m id) rest

/-- Embedding of `expandServiceBusNamespaceIdentity`. -/
def expandServiceBusNamespaceIdentity (input : List (Option IdentityBlock)) :
    Except Error Identity :=
  match input with
  | [] => .ok { Type_ := ManagedServiceIdentityTypeNone, UserAssignedIdentities := none }
  | none :: _ => .ok { Type_ := ManagedServiceIdentityTypeNone, UserAssignedIdentities := none }
  | some v :: _ =>
    let config : Identity := { Type_ := v.type, UserAssignedIdentities := none }
    let identityIds := v.identity_ids
    if identityIds.length ≠ 0 then
      if config.Type_ ≠ ManagedServiceIdentityTypeSystemAssignedUserAssigned
          ∧ config.Type_ ≠ ManagedServiceIdentityTypeUserAssigned then
        .error .identityIdsNotAllowed
      else
        .ok { config with UserAssignedIdentities := some (setAll [] identityIds) }
    else .ok config

/-- The capacity check of `resourceServiceBusNamespaceCreateUpdate` (the block
`if capacity := d.Get("capacity"); capacity != nil { ... }`): the error it returns, or the SKU
of the request after it. -/
def capacityCheck (sku : String) (capacity : Option Int) (requestSku : SBSku) :
    Except Error SBSku :=
  match capacity with
  | none => .ok requestSku
  | some capacity =>
    if !EqualFold sku SkuNamePremium && decide (capacity > 0) then
      .error .capacityMustBeZero
    else if EqualFold sku SkuNamePremium && decide (capacity = 0) then
      .error .capacityMustBePositive
    else .ok { requestSku with Capacity := some (toInt32 capacity) }

/-- Embedding of `resourceServiceBusNamespaceCreateUpdate`: how it ends and the client calls it made. -/
def resourceServiceBusNamespaceCreateUpdate (h : Helpers) (w : World) (d : ResourceData) :
    Outcome Error Unit × List Call :=
  let location := h.NormalizeLocation d.location
  let sku := d.sku
  let existingCheck : Option Error × List Call :=
    if w.IsNewResource then
      if w.GetErr.isSome && !w.GetWasNotFound then
        (some (.checkingExisting (w.GetErr.getD "")), [.Get])
      else if !w.GetWasNotFound then
        (some .importAsExists, [.Get])
      else (none, [.Get])
    else (none, [])
  match existingCheck with
  | (some e, calls) => (.error e, calls)
  | (none, calls) =>
    let requestSku : SBSku := { Name := sku, Tier := sku, Capacity := none }
    match expandServiceBusNamespaceIdentity d.identity with
    | .error e => (.error e, calls)
    | .ok identity =>
      match capacityCheck sku d.capacity requestSku with
      | .error e => (.error e, calls)
      | .ok requestSku =>
        let parameters : SBNamespace :=
          { Location := some location
            Sku := some requestSku
            SBNamespaceProperties := some { ZoneRedundant := some d.zone_redundant }
            Identity := some identity
            Tags := h.tagsExpand d.tags }
        match w.CreateOrUpdate parameters with
        | some e => (.error (.creatingUpdating e), calls ++ [.CreateOrUpdate parameters])
        | none =>
          match w.WaitForCompletionRef with
          | some e => (.error (.waiting e), calls ++ [.CreateOrUpdate parameters])
          | none =>
            match w.Read with
            | some e => (.error (.read e), calls ++ [.CreateOrUpdate parameters])
            | none => (.ok (), calls ++ [.CreateOrUpdate parameters])

/-- Example helpers. -/
def exampleHelpers : Helpers :=
  { NormalizeLocation := fun s => s, tagsExpand := fun t => t }

/-- An example remote side: an update of an existing namespace, every call succeeds. -/
def exampleWorld : World :=
  { IsNewResource := false, GetErr := none, GetWasNotFound := false
    CreateOrUpdate := fun _ => none, WaitForCompletionRef := none, Read := none }

/-- An example configuration: a premium namespace of capacity 4. -/
def exampleData : ResourceData :=
  { name := "ns", resource_group_name := "rg", location := "westeurope", sku := "premium"
    capacity := some 4, zone_redundant := false, identity := [], tags := [] }

/-- An example `identity` block with two user assigned identities. -/
def exampleIdentity : IdentityBlock :=
  { type := "UserAssigned", identity_ids := ["/id/a", "/id/b"] }

end ServiceBus

/-! ## Azure CLI token authentication
(`vendor/github.com/hashicorp/go-azure-helpers/authentication/auth_method_azure_cli_token.go`) -/

namespace AzureCli

/-- The part of the `go-version` library used by the authentication helper (the library is not
part of the sources): parsing a version and comparing two versions; `Compare` is negative,
zero or positive. -/
structure VersionLibrary (V : Type) where
  NewVersion : String → Except String V
  Compare : V → V → Int

/-- The method `v.LessThan(o)` of the library: `v.Compare(o) < 0`. -/
def VersionLibrary.LessThan {V : Type} (lib : VersionLibrary V) (v o : V) : Bool :=
  decide (lib.Compare v o < 0)

/-- The method `v.LessThanOrEqual(o)` of the library: `v.Compare(o) <= 0`. -/
def VersionLibrary.LessThanOrEqual {V : Type} (lib : VersionLibrary V) (v o : V) : Bool :=
  decide (lib.Compare v o ≤ 0)

/-- What one run of the `az` command does: the error of `cmd.Start`, the error of `cmd.Wait`,
and what the process wrote to its standard output and standard error. -/
structure AzRun where
  Start : Option String
  Wait : Option String
  stdout : String
  stderr : String
  deriving DecidableEq, Repr

/-- The errors of `jsonUnmarshalAzCmd`; `stdErr` is the trimmed standard error appended to the
message when it is not empty. -/
inductive AzError where
  /-- Error `launching Azure CLI: %+v` -/
  | launching (err : String) (stdErr : Option String)
  /-- Error `waiting for the Azure CLI: %+v` -/
  | waiting (err : String) (stdErr : Option String)
  /-- Error `unmarshaling the result of Azure CLI: %v` -/
  | unmarshaling (err : String)
  deriving DecidableEq, Repr

/-- Embedding of `jsonUnmarshalAzCmd`: the decoded target or the error, and the list of the `az` commands
launched, each with its arguments.  `az` gives the run of a command, `Unmarshal` is
`json.Unmarshal` into the target. -/
def jsonUnmarshalAzCmd {α : Type} (az : List String → AzRun)
    (Unmarshal : String → Except String α) (arg : List String) :
    Except AzError α × List (List String) :=
  let cmd := az arg
  let stdErr : Option String := if cmd.stderr ≠ "" then some cmd.stderr.trim else none
  match cmd.Start with
  | some err => (.error (.launching err stdErr), [arg])
  | none =>
    match cmd.Wait with
    | some err => (.error (.waiting err stdErr), [arg])
    | none =>
      match Unmarshal cmd.stdout with
      | .error err => (.error (.unmarshaling err), [arg])
      | .ok i => (.ok i, [arg])

/-- The anonymous struct `cliVersion` of `populateAzVersion`. -/
structure CliVersion where
  AzureCli : Option String
  AzureCliCore : Option String
  AzureCliTelemetry : Option String
  Extensions : Option String
  deriving DecidableEq, Repr

/-- The errors of `populateAzVersion`. -/
inductive VersionError where
  /-- Error `please ensure you have installed Azure CLI version %s or newer. Error parsing json
  result from the Azure CLI: %v.` -/
  | parsingJson (minimumVersion : String) (err : AzError)
  /-- Error `could not detect Azure CLI version. Please ensure you have installed Azure CLI version %s
  or newer.` -/
  | couldNotDetect (minimumVersion : String)
  /-- Error `could not parse detected Azure CLI version %q: %+v` -/
  | couldNotParse (azureCli : String) (err : String)
  /-- Error `Authenticating using the Azure CLI requires a version older than %[1]s but Terraform
  detected version %[3]s.` -/
  | nextMajorOrNewer
  /-- Error `Authenticating using the Azure CLI requires version %[1]s but Terraform detected version
  %[2]s.` -/
  | olderThanSupported
  deriving DecidableEq, Repr

/-- Embedding of `populateAzVersion`.  The target `cliVersion` is a pointer that stays nil (`none`) when the
decoded JSON is `null`, and `version.Must` panics when its argument does not parse. -/
def populateAzVersion {V : Type} (lib : VersionLibrary V) (az : List String → AzRun)
    (Unmarshal : String → Except String (Option CliVersion)) (tenantOnly : Bool) :
    Outcome VersionError V :=
  -- Azure CLI v2.0.79 is the earliest version to have a `version` command
  let minimumVersion := if tenantOnly then "2.0.81" else "2.0.79"
  match (jsonUnmarshalAzCmd az Unmarshal ["version", "-o=json"]).1 with
  | .error err => .error (.parsingJson minimumVersion err)
  | .ok none => .panic
  | .ok (some cliVersion) =>
    match cliVersion.AzureCli with
    | none => .error (.couldNotDetect minimumVersion)
    | some azureCli =>
      match lib.NewVersion azureCli with
      | .error err => .error (.couldNotParse azureCli err)
      | .ok actual =>
        match lib.NewVersion minimumVersion with
        | .error _ => .panic
        | .ok supported =>
          match lib.NewVersion "3.0.0" with
          | .error _ => .panic
          | .ok nextMajor =>
            if lib.LessThanOrEqual nextMajor actual then .error .nextMajorOrNewer
            else if lib.LessThan actual supported then .error .olderThanSupported
            else .ok actual

/-- The segments of a dotted number such as `2.0.79`, read from its characters; `current` is
the segment being read. -/
def exampleSegments : List Char → Option Nat → Option (List Nat)
  | [], some n => some [n]
  | [], none => none
  | c :: cs, current =>
    if c = '.' then
      match current with
      | none => none
      | some n => (exampleSegments cs none).map (fun l => n :: l)
    else if c.isDigit then exampleSegments cs (some (current.getD 0 * 10 + (c.toNat - 48)))
    else none

/-- An example version library: versions `major.minor.patch` with segments below 1000, as a
number, compared as numbers. -/
def exampleLibrary : VersionLibrary Nat :=
  { NewVersion := fun s =>
      match exampleSegments s.data none with
      | some [a, b, c] => .ok (a * 1000000 + b * 1000 + c)
      | _ => .error "Malformed version"
    Compare := fun v o => (v : Int) - (o : Int) }

/-- An example run of `az version -o=json`: it succeeds and prints a JSON object. -/
def exampleAz : List String → AzRun :=
  fun _ => { Start := none, Wait := none, stdout := "\x7b\"azure-cli\": \"2.30.0\"\x7d"
             stderr := "" }

/-- An example decoder, which knows the output of `exampleAz`. -/
def exampleUnmarshal : String → Except String (Option CliVersion) :=
  fun stdout =>
    if stdout = "\x7b\"azure-cli\": \"2.30.0\"\x7d" then
      .ok (some { AzureCli := some "2.30.0", AzureCliCore := none, AzureCliTelemetry := none
                  Extensions := none })
    else .error "invalid character"

/-- The fields of `azureCLIProfile` that `validate` reads, and the environment. -/
structure azureCLIProfile where
  clientId : String
  environment : String
  subscriptionId : String
  tenantId : String
  tenantOnly : Bool
  deriving DecidableEq, Repr

/-- The struct `azureCliTokenAuth`; `profile` is `none` when the pointer is nil. -/
structure azureCliTokenAuth where
  profile : Option azureCLIProfile
  servicePrincipalAuthDocsLink : String
  deriving DecidableEq, Repr

/-- Modelled from the spec: `multierror.Append` of the go-multierror library, which is not part
of the sources.  A `*multierror.Error` is the list of the errors appended so far, `none` being
the nil pointer; appending to nil starts a new list. -/
def multierrorAppend (err : Option (List String)) (e : String) : Option (List String) :=
  some (err.getD [] ++ [e])

/-- Modelled from the spec: the method `ErrorOrNil` of `*multierror.Error`: nil for a nil
pointer and for an empty list of errors, the error itself otherwise. -/
def ErrorOrNil (err : Option (List String)) : Option (List String) :=
  match err with
  | none => none
  | some [] => none
  | some errors => some errors

/-- The errors of `validate`: the nil profile, or the multi-error with what was not found. -/
inductive ValidateError where
  /-- Error `Azure CLI Profile is nil - this is an internal error and should be reported.` -/
  | profileNil
  /-- The multi-error; each entry is the `%s` of `A %s was not found in your Azure CLI
  Credentials.` -/
  | notFound (missing : List String)
  deriving DecidableEq, Repr

/-- Embedding of `azureCliTokenAuth.validate`; `none` is the Go `nil` error. -/
def azureCliTokenAuth.validate (a : azureCliTokenAuth) : Option ValidateError :=
  let err : Option (List String) := none
  match a.profile with
  | none => some .profileNil
  | some profile =>
    let err := if profile.clientId = "" then multierrorAppend err "Client ID" else err
    let err :=
      if !profile.tenantOnly && profile.subscriptionId = "" then
        multierrorAppend err "Subscription ID"
      else err
    let err := if profile.tenantId = "" then multierrorAppend err "Tenant ID" else err
    (ErrorOrNil err).map .notFound

/-- The number of errors a result of `validate` reports. -/
def reportedErrors : Option ValidateError → Nat
  | none => 0
  | some .profileNil => 1
  | some (.notFound missing) => missing.length

/-- An example profile in tenant-only mode without subscription and without tenant. -/
def exampleProfile : azureCLIProfile :=
  { clientId := "04b07795-8ddb-461a-bbee-02f9e1bf7b46", environment := "public"
    subscriptionId := "", tenantId := "", tenantOnly := true }

end AzureCli

/-! ## Key vault certificates data source
(`internal/services/keyvault/key_vault_certificates_data_source.go`) -/

namespace KeyVault

/-- One certificate of a listing; `ID` is `none` when the pointer is nil. -/
structure CertificateItem where
  ID : Option String
  deriving DecidableEq, Repr

/-- One page of a listing, as the service answers it; `Value` is `none` when the pointer is
nil. -/
structure CertificateListResult where
  Value : Option (List CertificateItem)
  deriving DecidableEq, Repr

/-- Modelled from the spec: the method `IsEmpty` of a page result of the key vault SDK, which is
not part of the sources: the page has no `Value` or an empty one. -/
def CertificateListResult.IsEmpty (clr : CertificateListResult) : Bool :=
  match clr.Value with
  | none => true
  | some value => value.isEmpty

/-- Modelled from the spec: the page of a listing in the key vault SDK: the current page
result, and the answers of the page requests that follow it (the page has a next link exactly
when there are such answers). -/
structure CertificateListResultPage where
  clr : CertificateListResult
  following : List (Except String CertificateListResult)

/-- Modelled from the spec: the method `Values` of a page: the items of the current result. -/
def CertificateListResultPage.Values (page : CertificateListResultPage) :
    List CertificateItem :=
  match page.clr.Value with
  | none => []
  | some value => value

/-- Modelled from the spec: the method `NextWithContext` of a page, on the answers of the page
requests that follow: it fetches the next page, and goes on while the fetched page is empty
and has a next link; after the last page the result is empty. -/
def nextResults : List (Except String CertificateListResult) →
    Except String CertificateListResultPage
  | [] => .ok { clr := { Value := none }, following := [] }
  | .error err :: _ => .error err
  | .ok next :: following =>
    if following.isEmpty || !next.IsEmpty then .ok { clr := next, following := following }
    else nextResults following

/-- Modelled from the spec: the iterator returned by `GetCertificatesComplete`: a position in
the current page. -/
structure CertificateListResultIterator where
  i : Nat
  page : CertificateListResultPage

/-- Modelled from the spec: the method `NotDone` of the iterator. -/
def CertificateListResultIterator.NotDone (iter : CertificateListResultIterator) : Bool :=
  !iter.page.clr.IsEmpty && decide (iter.i < iter.page.Values.length)

/-- Modelled from the spec: the method `Response` of the iterator: the current page result. -/
def CertificateListResultIterator.Response (iter : CertificateListResultIterator) :
    CertificateListResult :=
  iter.page.clr

/-- Modelled from the spec: the method `NextWithContext` of the iterator: it advances by one
item, and moves to the next page after the last item of a page. -/
def CertificateListResultIterator.NextWithContext (iter : CertificateListResultIterator) :
    Except String CertificateListResultIterator :=
  if iter.i + 1 < iter.page.Values.length then .ok { iter with i := iter.i + 1 }
  else
    match nextResults iter.page.following with
    | .error err => .error err
    | .ok page => .ok { i := 0, page := page }

/-- Modelled from the spec: the client method `GetCertificatesComplete`, on the answers of the
successive page requests: the first answer is the first page, skipped when it is empty and has
a next link. -/
def GetCertificatesComplete (answers : List (Except String CertificateListResult)) :
    Except String CertificateListResultIterator :=
  match answers with
  | [] => .ok { i := 0, page := { clr := { Value := none }, following := [] } }
  | .error err :: _ => .error err
  | .ok clr :: following =>
    if !following.isEmpty && clr.IsEmpty then
      match nextResults following with
      | .error err => .error err
      | .ok page => .ok { i := 0, page := page }
    else .ok { i := 0, page := { clr := clr, following := following } }

/-- What the data source reads from outside: the results of the helpers whose code is not part
of the sources, and the answers of the service. -/
structure Environment where
  /-- Result of `parse.VaultID(d.Get("key_vault_id").(string))`, the ID on success -/
  VaultID : Except String String
  /-- Result of `keyVaultsClient.BaseUriForKeyVault(ctx, *keyVaultId)` -/
  BaseUriForKeyVault : Except String String
  /-- The answers of the successive page requests of the listing. -/
  certificates : List (Except String CertificateListResult)
  /-- The function `parse.ParseOptionallyVersionedNestedItemID`, giving the name of the item. -/
  ParseOptionallyVersionedNestedItemID : String → Except String String

/-- The errors of the data source, one per `return` site. -/
inductive Error where
  /-- The error of `parse.VaultID`. -/
  | parsingVaultId (err : String)
  /-- Error `fetching base vault url from id %q: %+v` -/
  | fetchingBaseUri (err : String)
  /-- Error `retrieving %s: %+v` -/
  | retrieving (err : String)
  /-- The error of `parse.ParseOptionallyVersionedNestedItemID`. -/
  | parsingItemId (err : String)
  /-- Error `retrieving next page of Certificates from %s: %+v` -/
  | retrievingNextPage (err : String)
  deriving DecidableEq, Repr

/-- What the data source sets on `d`. -/
structure State where
  id : String
  names : List String
  key_vault_id : String
  deriving DecidableEq, Repr

/-- The inner loop of `dataSourceKeyVaultCertificatesRead`,
`for _, v := range *certificateList.Response().Value`, over the items of the page as it was
when the loop started: the iterator and the names after it. -/
def readPage (env : Environment) :
    List CertificateItem → CertificateListResultIterator → List String →
      Outcome Error (CertificateListResultIterator × List String)
  | [], certificateList, names => .ok (certificateList, names)
  | v :: rest, certificateList, names =>
    match v.ID with
    | none => .panic
    | some id =>
      match env.ParseOptionallyVersionedNestedItemID id with
      | .error err => .error (.parsingItemId err)
      | .ok name =>
        let names := names ++ [name]
        match certificateList.NextWithContext with
        | .error err => .error (.retrievingNextPage err)
        | .ok certificateList => readPage env rest certificateList names

/-- The outer loop of `dataSourceKeyVaultCertificatesRead`, `for certificateList.NotDone()`,
run for at most `fuel` rounds: the names after it, or `none` when the rounds do not suffice. -/
def readPages (env : Environment) :
    Nat → CertificateListResultIterator → List String → Option (Outcome Error (List String))
  | 0, _, _ => none
  | fuel + 1, certificateList, names =>
    if certificateList.NotDone then
      match certificateList.Response.Value with
      | none => some .panic
      | some value =>
        match readPage env value certificateList names with
        | .panic => some .panic
        | .error err => some (.error err)
        | .ok (certificateList, names) => readPages env fuel certificateList names
    else some (.ok names)

/-- Embedding of `dataSourceKeyVaultCertificatesRead`, its outer loop run for at most `fuel`
rounds: what it sets on `d`, or the error. -/
def dataSourceKeyVaultCertificatesRead (env : Environment) (fuel : Nat) :
    Option (Outcome Error State) :=
  match env.VaultID with
  | .error err => some (.error (.parsingVaultId err))
  | .ok keyVaultId =>
    match env.BaseUriForKeyVault with
    | .error err => some (.error (.fetchingBaseUri err))
    | .ok _ =>
      match GetCertificatesComplete env.certificates with
      | .error err => some (.error (.retrieving err))
      | .ok certificateList =>
        let names : Option (Outcome Error (List String)) :=
          if certificateList.Response.Value ≠ none then readPages env fuel certificateList []
          else some (.ok [])
        match names with
        | none => none
        | some .panic => some .panic
        | some (.error err) => some (.error err)
        | some (.ok names) =>
          some (.ok { id := keyVaultId, names := names, key_vault_id := keyVaultId })

/-- The names of the items of a page, in order, for the items whose ID parses. -/
def pageNames (env : Environment) : List CertificateItem → List String
  | [] => []
  | v :: rest =>
    match v.ID with
    | none => pageNames env rest
    | some id =>
      match env.ParseOptionallyVersionedNestedItemID id with
      | .error _ => pageNames env rest
      | .ok name => name :: pageNames env rest

/-- The items of a page result. -/
def CertificateListResult.items (clr : CertificateListResult) : List CertificateItem :=
  match clr.Value with
  | none => []
  | some value => value

/-- The names of the certificates of all pages of a listing, in listing order. -/
def listedNames (env : Environment) : List CertificateListResult → List String
  | [] => []
  | page :: pages => pageNames env page.items ++ listedNames env pages

/-- The ID of the item is non-nil and parses. -/
def Parses (env : Environment) (item : CertificateItem) : Prop :=
  ∃ id name, item.ID = some id ∧ env.ParseOptionallyVersionedNestedItemID id = .ok name

/-- An example listing of three pages, the second one empty. -/
def examplePages : List CertificateListResult :=
  [{ Value := some [{ ID := some "a" }, { ID := some "b" }] },
   { Value := some [] },
   { Value := some [{ ID := some "c" }] }]

/-- An example environment: every helper succeeds, the name of an item is its ID. -/
def exampleEnvironment : Environment :=
  { VaultID := .ok "vault"
    BaseUriForKeyVault := .ok "https://vault.example"
    certificates := examplePages.map .ok
    ParseOptionallyVersionedNestedItemID := fun id => .ok id }

end KeyVault

/-! ## Theorems -/

namespace BatchAccount

/-- The loop over the authentication modes finds `SharedKey` exactly when it is in the list. -/
theorem anySharedKey_iff (modes : List String) :
    anySharedKey modes = true ↔ AuthenticationModeSharedKey ∈ modes := by
  induction modes with
  | nil => simp [anySharedKey]
  | cons m rest ih =>
    unfold anySharedKey
    by_cases hm : m = AuthenticationModeSharedKey
    · simp [hm]
    · simp only [hm, if_false, ih, List.mem_cons]
      constructor
      · exact Or.inr
      · rintro (h | h)
        · exact absurd h.symm hm
        · exact h

/-- When the user-subscription block returns an error, the create returns an error and makes
no `CreateThenPoll` call. -/
theorem create_of_userSubscription_error (h : Helpers) (w : World) (d : ResourceData)
    (hblock : ∀ properties, ∃ e, createUserSubscription h d properties = .error e) :
    (resourceBatchAccountCreate h w d).1.isError = true ∧
      ∀ c ∈ (resourceBatchAccountCreate h w d).2, c.isCreateThenPoll = false := by
  simp only [resourceBatchAccountCreate]
  cases h.ExpandSystemOrUserAssignedMap d.identity with
  | error e =>
    cases w.IsNewResource <;> cases w.Get.err <;> cases w.Get.wasNotFound <;>
      simp [Outcome.isError, Call.isCreateThenPoll]
  | ok identity =>
    dsimp only
    generalize createProperties d = properties
    obtain ⟨e, he⟩ := hblock properties
    rw [he]
    cases w.IsNewResource <;> cases w.Get.err <;> cases w.Get.wasNotFound <;>
      simp [Outcome.isError, Call.isCreateThenPoll]

/-- When the existing-resource check and the identity expansion succeed and the
user-subscription block returns an error, the create returns that error. -/
theorem create_eq_userSubscription_error (h : Helpers) (w : World) (d : ResourceData)
    (identity : SystemOrUserAssignedMap) (e : Error)
    (hex : w.IsNewResource = false ∨ w.Get.wasNotFound = true)
    (hid : h.ExpandSystemOrUserAssignedMap d.identity = .ok identity)
    (hblock : ∀ properties, createUserSubscription h d properties = .error e) :
    (resourceBatchAccountCreate h w d).1 = .error e := by
  simp only [resourceBatchAccountCreate, hid, hblock]
  rcases hex with hex | hex <;> rw [hex] <;>
    cases w.IsNewResource <;> cases w.Get.err <;> simp

/-- The create returns an error of the user-subscription block only if that block returned
it. -/
theorem userSubscription_error_of_create (h : Helpers) (w : World) (d : ResourceData)
    (hres : (resourceBatchAccountCreate h w d).1 = .error .sharedKeyNotAllowed) :
    ∃ properties, createUserSubscription h d properties = .error .sharedKeyNotAllowed := by
  revert hres
  simp only [resourceBatchAccountCreate]
  cases h.ExpandSystemOrUserAssignedMap d.identity with
  | error e =>
    cases w.IsNewResource <;> cases w.Get.err <;> cases w.Get.wasNotFound <;> simp
  | ok identity =>
    dsimp only
    generalize createProperties d = properties
    cases hb : createUserSubscription h d properties with
    | error e =>
      intro hres
      refine ⟨properties, ?_⟩
      rw [hb]
      revert hres
      cases w.IsNewResource <;> cases w.Get.err <;> cases w.Get.wasNotFound <;> simp
    | ok props =>
      cases w.IsNewResource <;> cases w.Get.err <;> cases w.Get.wasNotFound <;>
        simp <;> (repeat' split) <;> simp

/-- The user-subscription block never returns the managed identity error. -/
theorem createUserSubscription_error (h : Helpers) (d : ResourceData)
    (properties : BatchAccountCreateProperties) :
    createUserSubscription h d properties ≠ .error .managedIdentityRequiresIdentity := by
  unfold createUserSubscription
  simp only [GetOkList]
  (repeat' split) <;> simp

/-- C1: with `pool_allocation_mode = UserSubscription`, when expanding `key_vault_reference`
gives an error or no reference (in particular, for the expansion helper as the spec describes
it, when the list is empty), `resourceBatchAccountCreate` returns an error and makes no
`CreateThenPoll` call. -/
theorem resourceBatchAccountCreate_key_vault_reference_required
    (h : Helpers) (w : World) (d : ResourceData)
    (hmode : d.pool_allocation_mode = PoolAllocationModeUserSubscription)
    (hkv : (∃ e, h.expandBatchAccountKeyVaultReference d.key_vault_reference = .error e) ∨
      h.expandBatchAccountKeyVaultReference d.key_vault_reference = .ok none ∨
      (h.expandBatchAccountKeyVaultReference = expandBatchAccountKeyVaultReference ∧
        d.key_vault_reference = [])) :
    (resourceBatchAccountCreate h w d).1.isError = true ∧
      ∀ c ∈ (resourceBatchAccountCreate h w d).2, c.isCreateThenPoll = false := by
  have hkv2 : (∃ e, h.expandBatchAccountKeyVaultReference d.key_vault_reference = .error e) ∨
      h.expandBatchAccountKeyVaultReference d.key_vault_reference = .ok none := by
    rcases hkv with hk | hk | ⟨hf, hl⟩
    · exact Or.inl hk
    · exact Or.inr hk
    · exact Or.inl ⟨_, by rw [hf, hl]; rfl⟩
  apply create_of_userSubscription_error
  intro properties
  unfold createUserSubscription
  rcases hkv2 with ⟨e, hk⟩ | hk <;> simp [hmode, hk]

/-- Witness for C1: the example configuration has an empty `key_vault_reference` list. -/
theorem resourceBatchAccountCreate_key_vault_reference_required_witness :
    (resourceBatchAccountCreate exampleHelpers exampleWorld exampleData).1.isError = true ∧
      ∀ c ∈ (resourceBatchAccountCreate exampleHelpers exampleWorld exampleData).2,
        c.isCreateThenPoll = false :=
  resourceBatchAccountCreate_key_vault_reference_required exampleHelpers exampleWorld
    exampleData rfl (Or.inr (Or.inr ⟨rfl, rfl⟩))

/-- C7, as stated, fails: for a user-subscription configuration with a valid key vault
reference that allows `SharedKey`, created while the account already exists, the create
returns the import-as-exists error and not the "not allowed" error. -/
theorem resourceBatchAccountCreate_shared_key_other_error :
    sharedKeyData.pool_allocation_mode = PoolAllocationModeUserSubscription ∧
    (∃ r, exampleHelpers.expandBatchAccountKeyVaultReference sharedKeyData.key_vault_reference
      = .ok (some r)) ∧
    AuthenticationModeSharedKey ∈ sharedKeyData.allowed_authentication_modes ∧
    (resourceBatchAccountCreate exampleHelpers existingWorld sharedKeyData).1
      = .error .importAsExists ∧
    (resourceBatchAccountCreate exampleHelpers existingWorld sharedKeyData).1
      ≠ .error .sharedKeyNotAllowed := by
  refine ⟨rfl, ⟨_, rfl⟩, by decide, by decide, by decide⟩

/-- C7, amended: for a configuration with `pool_allocation_mode = UserSubscription` and a
valid key vault reference, the create returns the "not allowed" error only if
`allowed_authentication_modes` contains `SharedKey`; if it contains `SharedKey` the create
returns an error and makes no `CreateThenPoll` call, and that error is the "not allowed" error
whenever the existing-resource check and the identity expansion, which come first, succeed. -/
theorem resourceBatchAccountCreate_shared_key
    (h : Helpers) (w : World) (d : ResourceData) (r : KeyVaultReference)
    (hmode : d.pool_allocation_mode = PoolAllocationModeUserSubscription)
    (hkv : h.expandBatchAccountKeyVaultReference d.key_vault_reference = .ok (some r)) :
    ((resourceBatchAccountCreate h w d).1 = .error .sharedKeyNotAllowed →
      AuthenticationModeSharedKey ∈ d.allowed_authentication_modes) ∧
    (AuthenticationModeSharedKey ∈ d.allowed_authentication_modes →
      (resourceBatchAccountCreate h w d).1.isError = true ∧
      ∀ c ∈ (resourceBatchAccountCreate h w d).2, c.isCreateThenPoll = false) ∧
    (AuthenticationModeSharedKey ∈ d.allowed_authentication_modes →
      (w.IsNewResource = false ∨ w.Get.wasNotFound = true) →
      (∃ identity, h.ExpandSystemOrUserAssignedMap d.identity = .ok identity) →
      (resourceBatchAccountCreate h w d).1 = .error .sharedKeyNotAllowed) := by
  have hblock : AuthenticationModeSharedKey ∈ d.allowed_authentication_modes →
      ∀ properties, createUserSubscription h d properties = .error .sharedKeyNotAllowed := by
    intro hin properties
    have hany : anySharedKey d.allowed_authentication_modes = true :=
      (anySharedKey_iff _).2 hin
    have hne : d.allowed_authentication_modes.isEmpty = false := by
      cases hl : d.allowed_authentication_modes with
      | nil => rw [hl] at hin; cases hin
      | cons a t => rfl
    simp [createUserSubscription, hmode, hkv, GetOkList, hany, hne]
  refine ⟨?_, ?_, ?_⟩
  · intro hres
    obtain ⟨properties, hb⟩ := userSubscription_error_of_create h w d hres
    by_contra hnot
    have hany : anySharedKey d.allowed_authentication_modes = false := by
      rw [← Bool.not_eq_true, anySharedKey_iff]; exact hnot
    simp [createUserSubscription, hmode, hkv, GetOkList, hany] at hb
  · intro hin
    exact create_of_userSubscription_error h w d (fun p => ⟨_, hblock hin p⟩)
  · rintro hin hex ⟨identity, hid⟩
    exact create_eq_userSubscription_error h w d identity _ hex hid (hblock hin)

/-- Witness for C7: on a remote side without the account, the shared-key configuration is
rejected with the "not allowed" error. -/
theorem resourceBatchAccountCreate_shared_key_witness :
    (resourceBatchAccountCreate exampleHelpers exampleWorld sharedKeyData).1
      = .error .sharedKeyNotAllowed :=
  (resourceBatchAccountCreate_shared_key exampleHelpers exampleWorld sharedKeyData
    { Id := "/subscriptions/s/vault", Url := "https://v.example" } rfl rfl).2.2
    (by decide) (Or.inr rfl) ⟨_, rfl⟩

/-- The storage account block of the update calls `Get` at most, never `Update`. -/
theorem updateStorageAccountChange_calls (w : World) (d : ResourceData)
    (properties : BatchAccountUpdateProperties) :
    ∀ c ∈ (updateStorageAccountChange w d properties).2, c.isUpdate = false := by
  unfold updateStorageAccountChange
  cases d.hasChange_storage_account_id <;> cases w.Get.err <;>
    simp [GetOkString, Call.isUpdate] <;> split <;> simp [Call.isUpdate]

/-- The storage account block of the update never returns the managed identity error. -/
theorem updateStorageAccountChange_error (w : World) (d : ResourceData)
    (properties : BatchAccountUpdateProperties) :
    ∀ e, (updateStorageAccountChange w d properties).1 = .error e →
      e ≠ .managedIdentityRequiresIdentity := by
  unfold updateStorageAccountChange
  cases d.hasChange_storage_account_id <;> cases w.Get.err <;>
    simp [GetOkString] <;> split <;> simp

/-- C8: with `storage_account_authentication_mode = BatchAccountManagedIdentity`, when the
expanded identity has type `None` both `resourceBatchAccountCreate` and
`resourceBatchAccountUpdate` return an error without calling `CreateThenPoll` / `Update`; when
it has type `SystemAssigned` or `UserAssigned` neither returns the error of this check. -/
theorem resourceBatchAccount_managed_identity
    (h : Helpers) (w : World) (d : ResourceData) (identity : SystemOrUserAssignedMap)
    (hmode : d.storage_account_authentication_mode =
      AutoStorageAuthenticationModeBatchAccountManagedIdentity)
    (hid : h.ExpandSystemOrUserAssignedMap d.identity = .ok identity) :
    (identity.Type_ = "None" →
      ((resourceBatchAccountCreate h w d).1.isError = true ∧
        ∀ c ∈ (resourceBatchAccountCreate h w d).2, c.isCreateThenPoll = false) ∧
      ((resourceBatchAccountUpdate h w d).1.isError = true ∧
        ∀ c ∈ (resourceBatchAccountUpdate h w d).2, c.isUpdate = false)) ∧
    (identity.Type_ = "SystemAssigned" ∨ identity.Type_ = "UserAssigned" →
      (resourceBatchAccountCreate h w d).1 ≠ .error .managedIdentityRequiresIdentity ∧
      (resourceBatchAccountUpdate h w d).1 ≠ .error .managedIdentityRequiresIdentity) := by
  refine ⟨?_, ?_⟩
  · intro hnone
    refine ⟨?_, ?_⟩
    · simp only [resourceBatchAccountCreate, hid, hmode, hnone]
      generalize createProperties d = properties
      cases createUserSubscription h d properties <;>
        cases w.IsNewResource <;> cases w.Get.err <;> cases w.Get.wasNotFound <;>
        simp [Outcome.isError, Call.isCreateThenPoll]
    · simp only [resourceBatchAccountUpdate, hid, hmode, hnone]
      cases h.ParseBatchAccountID d.id with
      | error e => simp [Outcome.isError]
      | ok _ =>
        dsimp only
        have hcalls := updateStorageAccountChange_calls w d
        generalize updateProperties d = properties
        specialize hcalls properties
        rcases hsc : updateStorageAccountChange w d properties with ⟨r, calls⟩
        rw [hsc] at hcalls
        cases r <;> simpa [Outcome.isError] using hcalls
  · intro htype
    have hnn : identity.Type_ ≠ "None" := by
      rcases htype with ht | ht <;> rw [ht] <;> decide
    refine ⟨?_, ?_⟩
    · simp only [resourceBatchAccountCreate, hid, hmode, hnn]
      generalize createProperties d = properties
      have hb := createUserSubscription_error h d properties
      cases hcu : createUserSubscription h d properties with
      | error e =>
        rw [hcu] at hb
        have hb2 : e ≠ Error.managedIdentityRequiresIdentity := fun he => hb (by rw [he])
        cases w.IsNewResource <;> cases w.Get.err <;> cases w.Get.wasNotFound <;>
          simp [hb2]
      | ok props =>
        cases w.IsNewResource <;> cases w.Get.err <;> cases w.Get.wasNotFound <;>
          simp <;> (repeat' split) <;> simp
    · simp only [resourceBatchAccountUpdate, hid, hmode, hnn]
      cases h.ParseBatchAccountID d.id with
      | error e => simp
      | ok _ =>
        dsimp only
        have hcalls := updateStorageAccountChange_error w d
        generalize updateProperties d = properties
        specialize hcalls properties
        rcases hsc : updateStorageAccountChange w d properties with ⟨r, calls⟩
        rw [hsc] at hcalls
        cases r with
        | error e => simpa using hcalls e rfl
        | ok props => simp; (repeat' split) <;> simp

/-- Witness for C8: the managed-identity configuration without identity block is rejected by
create and by update. -/
theorem resourceBatchAccount_managed_identity_witness :
    ((resourceBatchAccountCreate exampleHelpers exampleWorld managedIdentityData).1.isError
        = true ∧
      ∀ c ∈ (resourceBatchAccountCreate exampleHelpers exampleWorld managedIdentityData).2,
        c.isCreateThenPoll = false) ∧
    ((resourceBatchAccountUpdate exampleHelpers exampleWorld managedIdentityData).1.isError
        = true ∧
      ∀ c ∈ (resourceBatchAccountUpdate exampleHelpers exampleWorld managedIdentityData).2,
        c.isUpdate = false) :=
  (resourceBatchAccount_managed_identity exampleHelpers exampleWorld managedIdentityData
    { Type_ := "None", IdentityIds := [] } rfl rfl).1 rfl

end BatchAccount

namespace BatchPool

/-- The loop body accepts a resource file exactly when the file satisfies the three rules. -/
theorem validateResourceFile_eq_none_iff (f : ResourceFile) :
    validateResourceFile f = none ↔ f.satisfiesRules := by
  unfold validateResourceFile ResourceFile.satisfiesRules
  cases f.AutoStorageContainerName <;> cases f.StorageContainerURL <;> cases f.HTTPURL <;>
    cases f.BlobPrefix <;> cases f.FilePath <;> simp

/-- The loop accepts a list of resource files exactly when every file satisfies the rules. -/
theorem validateResourceFiles_eq_none_iff (files : List ResourceFile) :
    validateResourceFiles files = none ↔ ∀ f ∈ files, f.satisfiesRules := by
  induction files with
  | nil => simp [validateResourceFiles]
  | cons f rest ih =>
    unfold validateResourceFiles
    cases hf : validateResourceFile f with
    | some e =>
      have hn : ¬ f.satisfiesRules := by
        rw [← validateResourceFile_eq_none_iff, hf]; simp
      simp [hn]
    | none =>
      have hy : f.satisfiesRules := (validateResourceFile_eq_none_iff f).1 hf
      simp [hy, ih]

/-- C2: for a pool with non-nil pool properties, `validateBatchPoolCrossFieldRules` returns
nil if and only if every resource file of the start task (when there is a start task with
resource files) satisfies the three rules; a pool without start task, or whose start task has
no resource files, passes. -/
theorem validateBatchPoolCrossFieldRules_ok_iff (pool : Pool) (props : PoolProperties)
    (hprops : pool.PoolProperties = some props) :
    (validateBatchPoolCrossFieldRules pool = .ok () ↔
      ∀ startTask files, props.StartTask = some startTask →
        startTask.ResourceFiles = some files → ∀ f ∈ files, f.satisfiesRules) ∧
    (props.StartTask = none → validateBatchPoolCrossFieldRules pool = .ok ()) ∧
    (∀ startTask, props.StartTask = some startTask → startTask.ResourceFiles = none →
      validateBatchPoolCrossFieldRules pool = .ok ()) := by
  have hmain : validateBatchPoolCrossFieldRules pool =
      match props.StartTask with
      | none => .ok ()
      | some startTask =>
        match startTask.ResourceFiles with
        | none => .ok ()
        | some resourceFiles =>
          match validateResourceFiles resourceFiles with
          | some e => .error e
          | none => .ok () := by
    simp only [validateBatchPoolCrossFieldRules, hprops]
  rw [hmain]
  cases hst : props.StartTask with
  | none => simp
  | some startTask =>
    dsimp only
    cases hrf : startTask.ResourceFiles with
    | none =>
      dsimp only
      refine ⟨⟨fun _ st files h1 h2 => ?_, fun _ => rfl⟩, by simp, fun _ _ _ => rfl⟩
      cases h1
      rw [hrf] at h2
      cases h2
    | some files =>
      dsimp only
      have hiff := validateResourceFiles_eq_none_iff files
      refine ⟨?_, by simp, ?_⟩
      · cases hv : validateResourceFiles files with
        | none =>
          dsimp only
          rw [hv] at hiff
          refine ⟨fun _ st fs h1 h2 => ?_, fun _ => rfl⟩
          cases h1
          rw [hrf] at h2
          cases h2
          exact hiff.1 rfl
        | some e =>
          dsimp only
          rw [hv] at hiff
          refine ⟨fun h => (by cases h), fun hall => ?_⟩
          have := hiff.2 (hall startTask files rfl hrf)
          cases this
      · intro st h1 h2
        cases h1
        rw [hrf] at h2
        cases h2

/-- Witness for C2: the example pool has properties, so the equivalence holds for it. -/
theorem validateBatchPoolCrossFieldRules_ok_iff_witness :
    examplePool.PoolProperties = some exampleProperties ∧
    (validateBatchPoolCrossFieldRules examplePool = .ok () ↔
      ∀ startTask files, exampleProperties.StartTask = some startTask →
        startTask.ResourceFiles = some files → ∀ f ∈ files, f.satisfiesRules) :=
  ⟨rfl, (validateBatchPoolCrossFieldRules_ok_iff examplePool exampleProperties rfl).1⟩

/-- C3, as stated, fails: an identity with an `auto_user` block and a `user_name` that is the
empty string has both fields non-nil, and `validateUserIdentity` returns nil for it. -/
theorem validateUserIdentity_both_defined_accepted :
    validateUserIdentity (some autoUserWithEmptyUserName) = none ∧
      autoUserWithEmptyUserName.AutoUser ≠ none ∧
      autoUserWithEmptyUserName.UserName ≠ none ∧
      ¬ autoUserWithEmptyUserName.exactlyOneDefined := by
  refine ⟨by decide, by decide, by decide, ?_⟩
  unfold UserIdentity.exactlyOneDefined
  decide

/-- C3, amended: `validateUserIdentity` returns nil if and only if the identity is non-nil, at
least one of `AutoUser` and `UserName` is non-nil, and it is not the case that `AutoUser` is
non-nil together with a non-empty `UserName`. -/
theorem validateUserIdentity_eq_none_iff (userIdentity : Option UserIdentity) :
    validateUserIdentity userIdentity = none ↔
      ∃ u, userIdentity = some u ∧ (u.AutoUser ≠ none ∨ u.UserName ≠ none) ∧
        ¬ (u.AutoUser ≠ none ∧ ∃ name, u.UserName = some name ∧ name ≠ "") := by
  cases userIdentity with
  | none => simp [validateUserIdentity]
  | some u =>
    obtain ⟨name, autoUser⟩ := u
    cases name <;> cases autoUser <;> simp [validateUserIdentity]

/-- C4: `expandBatchPoolScaleSettings` returns an error when neither block is present and when
both are; with only an `auto_scale` block it returns settings whose `AutoScale` carries the
block's interval and formula and whose `FixedScale` is nil; with only a `fixed_scale` block
(node counts in the `int32` range, as the schema enforces) it returns settings whose
`FixedScale` carries the block's four values and whose `AutoScale` is nil. -/
theorem expandBatchPoolScaleSettings_spec
    (auto_scale : List (Option AutoScaleBlock)) (fixed_scale : List (Option FixedScaleBlock)) :
    (auto_scale = [] → fixed_scale = [] →
      expandBatchPoolScaleSettings auto_scale fixed_scale = .error .blockNeeded) ∧
    (auto_scale ≠ [] → fixed_scale ≠ [] →
      expandBatchPoolScaleSettings auto_scale fixed_scale = .error .bothSpecified) ∧
    (∀ b rest, auto_scale = some b :: rest → fixed_scale = [] →
      expandBatchPoolScaleSettings auto_scale fixed_scale =
        .ok { AutoScale := some { EvaluationInterval := some b.evaluation_interval
                                  Formula := some b.formula }
              FixedScale := none }) ∧
    (∀ b rest, fixed_scale = some b :: rest → auto_scale = [] →
      -2 ^ 31 ≤ b.target_dedicated_nodes → b.target_dedicated_nodes < 2 ^ 31 →
      -2 ^ 31 ≤ b.target_low_priority_nodes → b.target_low_priority_nodes < 2 ^ 31 →
      expandBatchPoolScaleSettings auto_scale fixed_scale =
        .ok { AutoScale := none
              FixedScale := some
                { NodeDeallocationOption := b.node_deallocation_method
                  ResizeTimeout := some b.resize_timeout
                  TargetDedicatedNodes := some b.target_dedicated_nodes
                  TargetLowPriorityNodes := some b.target_low_priority_nodes } }) := by
  refine ⟨?_, ?_, ?_, ?_⟩
  · intro ha hf
    subst ha; subst hf
    rfl
  · intro ha hf
    cases auto_scale with
    | nil => exact absurd rfl ha
    | cons a ra =>
      cases fixed_scale with
      | nil => exact absurd rfl hf
      | cons f rf => simp [expandBatchPoolScaleSettings, GetOkList]
  · intro b rest ha hf
    subst ha; subst hf
    simp [expandBatchPoolScaleSettings, GetOkList]
  · intro b rest hf ha h1 h2 h3 h4
    subst ha; subst hf
    have e1 : toInt32 b.target_dedicated_nodes = b.target_dedicated_nodes := by
      unfold toInt32; omega
    have e2 : toInt32 b.target_low_priority_nodes = b.target_low_priority_nodes := by
      unfold toInt32; omega
    simp [expandBatchPoolScaleSettings, GetOkList, e1, e2]

/-- Witness for C4: the example `fixed_scale` block alone is expanded to fixed scale settings
with its values. -/
theorem expandBatchPoolScaleSettings_spec_witness :
    expandBatchPoolScaleSettings [] [some exampleFixedScale] =
      .ok { AutoScale := none
            FixedScale := some
              { NodeDeallocationOption := "Requeue"
                ResizeTimeout := some "PT15M"
                TargetDedicatedNodes := some 2000
                TargetLowPriorityNodes := some 0 } } :=
  (expandBatchPoolScaleSettings_spec [] [some exampleFixedScale]).2.2.2 exampleFixedScale []
    rfl rfl (by decide) (by decide) (by decide) (by decide)

/-- Every call made by the wait loop is a `Get`. -/
theorem waitFor_calls (responses : List GetResponse) :
    ∀ c ∈ (waitForBatchPoolPendingResizeOperation responses).2.1, c = Call.Get := by
  induction responses with
  | nil => simp [waitForBatchPoolPendingResizeOperation]
  | cons resp rest ih =>
    unfold waitForBatchPoolPendingResizeOperation
    cases resp with
    | error err => simp
    | ok pool =>
      cases hp : pool.PoolProperties with
      | none => simp [hp]
      | some props =>
        by_cases hs : props.AllocationState = AllocationStateSteady
        · simp [hp, hs]
        · simp only [hp, hs, if_false]
          intro c hc
          simp only [List.mem_cons] at hc
          rcases hc with hc | hc
          · exact hc
          · exact ih c hc

/-- When the wait loop returns nil, it made `n + 1` calls of `Get`, where answer `n` is the
first steady one and the answers before it are pools that are not steady. -/
theorem waitFor_ok (responses : List GetResponse) (u : Unit) (calls : List Call)
    (left : List GetResponse)
    (h : waitForBatchPoolPendingResizeOperation responses = (some (.ok u), calls, left)) :
    ∃ n, calls = List.replicate (n + 1) Call.Get ∧
      (∃ r, responses[n]? = some r ∧ r.allocationState = some AllocationStateSteady) ∧
      ∀ i, i < n → ∃ r st, responses[i]? = some r ∧ r.allocationState = some st ∧
        st ≠ AllocationStateSteady := by
  induction responses generalizing calls left with
  | nil => simp [waitForBatchPoolPendingResizeOperation] at h
  | cons resp rest ih =>
    unfold waitForBatchPoolPendingResizeOperation at h
    cases resp with
    | error err => simp at h
    | ok pool =>
      cases hp : pool.PoolProperties with
      | none => simp [hp] at h
      | some props =>
        by_cases hs : props.AllocationState = AllocationStateSteady
        · simp only [hp, hs, if_true, Prod.mk.injEq] at h
          refine ⟨0, ?_, ⟨.ok pool, by simp, ?_⟩, ?_⟩
          · rw [← h.2.1]; rfl
          · simp [GetResponse.allocationState, hp, hs]
          · intro i hi; omega
        · simp only [hp, hs, if_false, Prod.mk.injEq] at h
          obtain ⟨h1, h2, h3⟩ := h
          obtain ⟨n, hn, hst, hbefore⟩ := ih _ _ (Prod.ext h1 (Prod.ext rfl rfl))
          refine ⟨n + 1, ?_, ?_, ?_⟩
          · rw [← h2, hn]; rfl
          · simpa using hst
          · intro i hi
            cases i with
            | zero =>
              exact ⟨.ok pool, props.AllocationState, by simp,
                by simp [GetResponse.allocationState, hp], hs⟩
            | succ j =>
              simpa using hbefore j (by omega)

/-- The calls of the sending part are the `Update` of the request followed by `Get` calls. -/
theorem sendUpdate_calls (w : World) (parameters : Pool) (responses : List GetResponse) :
    ∃ tail, (sendUpdate w parameters responses).2 = Call.Update parameters :: tail ∧
      ∀ c ∈ tail, c = Call.Get := by
  unfold sendUpdate
  cases w.Update parameters with
  | error err => exact ⟨[], rfl, by simp⟩
  | ok result =>
    dsimp only
    split
    · have hc := waitFor_calls responses
      rcases hw : waitForBatchPoolPendingResizeOperation responses with ⟨r, calls, left⟩
      rw [hw] at hc
      rcases r with _ | (_ | _ | _) <;> exact ⟨calls, rfl, hc⟩
    · exact ⟨[], rfl, by simp⟩

/-- After an answer that is a pool which is not steady, the wait loop polls again. -/
theorem waitFor_cons_not_steady (r : GetResponse) (rest : List GetResponse) (st : String)
    (hr : r.allocationState = some st) (hst : st ≠ AllocationStateSteady) :
    waitForBatchPoolPendingResizeOperation (r :: rest) =
      ((waitForBatchPoolPendingResizeOperation rest).1,
        Call.Get :: (waitForBatchPoolPendingResizeOperation rest).2.1,
        (waitForBatchPoolPendingResizeOperation rest).2.2) := by
  cases r with
  | error err => simp [GetResponse.allocationState] at hr
  | ok pool =>
    cases hp : pool.PoolProperties with
    | none => simp [GetResponse.allocationState, hp] at hr
    | some props =>
      simp only [GetResponse.allocationState, hp, Option.map_some', Option.some.injEq] at hr
      rw [waitForBatchPoolPendingResizeOperation]
      simp only [hp, hr, hst, if_false]

/-- When answer `n` is steady and the answers before it are pools that are not steady, the wait
loop returns nil after `n + 1` calls of `Get` and leaves the answers after answer `n`. -/
theorem waitFor_first_steady (responses : List GetResponse) (n : Nat)
    (hbefore : ∀ i, i < n → ∃ r st, responses[i]? = some r ∧ r.allocationState = some st ∧
      st ≠ AllocationStateSteady)
    (hsteady : ∃ r, responses[n]? = some r ∧ r.allocationState = some AllocationStateSteady) :
    waitForBatchPoolPendingResizeOperation responses =
      (some (.ok ()), List.replicate (n + 1) Call.Get, responses.drop (n + 1)) := by
  induction n generalizing responses with
  | zero =>
    obtain ⟨r, hr0, hr⟩ := hsteady
    cases responses with
    | nil => simp at hr0
    | cons r0 rest =>
      simp only [List.getElem?_cons_zero, Option.some.injEq] at hr0
      subst hr0
      cases r0 with
      | error err => simp [GetResponse.allocationState] at hr
      | ok pool =>
        cases hp : pool.PoolProperties with
        | none => simp [GetResponse.allocationState, hp] at hr
        | some props =>
          simp only [GetResponse.allocationState, hp, Option.map_some',
            Option.some.injEq] at hr
          rw [waitForBatchPoolPendingResizeOperation]
          simp [hp, hr]
  | succ k ih =>
    obtain ⟨r, hrn, hr⟩ := hsteady
    obtain ⟨r0, st, hr0, hr0s, hst⟩ := hbefore 0 (by omega)
    cases responses with
    | nil => simp at hr0
    | cons r1 rest =>
      simp only [List.getElem?_cons_zero, Option.some.injEq] at hr0
      subst hr0
      have hrest : ∀ i, i < k → ∃ r st, rest[i]? = some r ∧ r.allocationState = some st ∧
          st ≠ AllocationStateSteady := by
        intro i hi
        simpa using hbefore (i + 1) (by omega)
      have h := ih rest hrest ⟨r, by simpa using hrn, hr⟩
      rw [waitFor_cons_not_steady r1 rest st hr0s hst, h]
      rfl

/-- When answer `n` is a failure and the answers before it are pools that are not steady, the
wait loop returns the error of that failure after `n + 1` calls of `Get`. -/
theorem waitFor_first_failure (responses : List GetResponse) (n : Nat) (e : String)
    (hbefore : ∀ i, i < n → ∃ r st, responses[i]? = some r ∧ r.allocationState = some st ∧
      st ≠ AllocationStateSteady)
    (hfailure : responses[n]? = some (.error e)) :
    waitForBatchPoolPendingResizeOperation responses =
      (some (.error (.retrievingPool e)), List.replicate (n + 1) Call.Get,
        responses.drop (n + 1)) := by
  induction n generalizing responses with
  | zero =>
    cases responses with
    | nil => simp at hfailure
    | cons r0 rest =>
      simp only [List.getElem?_cons_zero, Option.some.injEq] at hfailure
      subst hfailure
      simp [waitForBatchPoolPendingResizeOperation]
  | succ k ih =>
    obtain ⟨r0, st, hr0, hr0s, hst⟩ := hbefore 0 (by omega)
    cases responses with
    | nil => simp at hr0
    | cons r1 rest =>
      simp only [List.getElem?_cons_zero, Option.some.injEq] at hr0
      subst hr0
      have hrest : ∀ i, i < k → ∃ r st, rest[i]? = some r ∧ r.allocationState = some st ∧
          st ≠ AllocationStateSteady := by
        intro i hi
        simpa using hbefore (i + 1) (by omega)
      have h := ih rest hrest (by simpa using hfailure)
      rw [waitFor_cons_not_steady r1 rest st hr0s hst, h]
      rfl

/-- The update handler after a first answer that is not steady, with the flag set and
`StopResize` successful: its result and calls, from the result of the wait loop. -/
theorem resourceBatchPoolUpdate_of_wait (x : Expanded) (w : World) (d : ResourceData)
    (id : String) (pool : Pool) (props : PoolProperties) (rest : List GetResponse)
    (hid : x.PoolID = .ok id) (hget : w.Get = .ok pool :: rest)
    (hprops : pool.PoolProperties = some props)
    (hstate : props.AllocationState ≠ AllocationStateSteady)
    (hflag : d.stop_pending_resize_operation = true) (hstop : w.StopResize = none) :
    resourceBatchPoolUpdate x w d =
      match waitForBatchPoolPendingResizeOperation rest with
      | (none, calls, _) => (none, [.Get, .StopResize] ++ calls)
      | (some .panic, calls, _) => (some .panic, [.Get, .StopResize] ++ calls)
      | (some (.error _), calls, _) => (some (.error .waiting), [.Get, .StopResize] ++ calls)
      | (some (.ok _), calls, left) =>
        match updateParameters x d with
        | .panic => (some .panic, [.Get, .StopResize] ++ calls)
        | .error err => (some (.error err), [.Get, .StopResize] ++ calls)
        | .ok parameters =>
          ((sendUpdate w parameters left).1,
            ([.Get, .StopResize] ++ calls) ++ (sendUpdate w parameters left).2) := by
  simp only [resourceBatchPoolUpdate, hid, hget, hprops, hstate, hflag, hstop, ne_eq,
    not_false_eq_true, if_true, Bool.not_true, Bool.false_eq_true, if_false]
  rcases waitForBatchPoolPendingResizeOperation rest with ⟨r, calls, left⟩
  rcases r with _ | (u | e | _) <;> rfl

/-- C6: when the allocation state read at the start of `resourceBatchPoolUpdate` is not
`Steady`: with `stop_pending_resize_operation` false the update returns an error and calls
neither `StopResize` nor `Update`.  With the flag true it calls `StopResize` right after the
first `Get`; when `StopResize` fails it returns that error and makes no further call; when
`StopResize` succeeds it polls `Get` up to the first answer that is steady or a failure, the
answers before it being pools that are not steady: after a failure it returns an error without
`Update`, and after the steady answer `n` it builds the request and, when that succeeds, sends
it as the `Update` call that follows the `n + 1` polls, the result being that of the steps from
`Update` on; when building the request fails it returns that error without `Update`.  An
`Update` is in the call list only after a successful `StopResize` and polls up to the first
steady answer, and it carries the request built by the handler. -/
theorem resourceBatchPoolUpdate_pending_resize
    (x : Expanded) (w : World) (d : ResourceData) (id : String) (pool : Pool)
    (props : PoolProperties) (rest : List GetResponse)
    (hid : x.PoolID = .ok id) (hget : w.Get = .ok pool :: rest)
    (hprops : pool.PoolProperties = some props)
    (hstate : props.AllocationState ≠ AllocationStateSteady) :
    (d.stop_pending_resize_operation = false →
      (resourceBatchPoolUpdate x w d).1 = some (.error .pendingResizeOperation) ∧
      ∀ c ∈ (resourceBatchPoolUpdate x w d).2, c.isStopResize = false ∧ c.isUpdate = false) ∧
    (d.stop_pending_resize_operation = true →
      (∃ tail, (resourceBatchPoolUpdate x w d).2 = Call.Get :: Call.StopResize :: tail) ∧
      (∀ parameters, Call.Update parameters ∈ (resourceBatchPoolUpdate x w d).2 →
        w.StopResize = none ∧ updateParameters x d = .ok parameters ∧
        ∃ n tail, (resourceBatchPoolUpdate x w d).2 =
            Call.Get :: Call.StopResize ::
              (List.replicate (n + 1) Call.Get ++ Call.Update parameters :: tail) ∧
          (∃ r, rest[n]? = some r ∧ r.allocationState = some AllocationStateSteady) ∧
          ∀ i, i < n → ∃ r st, rest[i]? = some r ∧ r.allocationState = some st ∧
            st ≠ AllocationStateSteady) ∧
      (∀ err, w.StopResize = some err →
        resourceBatchPoolUpdate x w d =
          (some (.error (.stoppingResize err)), [Call.Get, Call.StopResize])) ∧
      (∀ n, w.StopResize = none →
        (∀ i, i < n → ∃ r st, rest[i]? = some r ∧ r.allocationState = some st ∧
          st ≠ AllocationStateSteady) →
        ((∃ e, rest[n]? = some (.error e)) →
          resourceBatchPoolUpdate x w d =
            (some (.error .waiting),
              Call.Get :: Call.StopResize :: List.replicate (n + 1) Call.Get)) ∧
        ((∃ r, rest[n]? = some r ∧ r.allocationState = some AllocationStateSteady) →
          (∀ parameters, updateParameters x d = .ok parameters →
            resourceBatchPoolUpdate x w d =
              ((sendUpdate w parameters (rest.drop (n + 1))).1,
                Call.Get :: Call.StopResize ::
                  (List.replicate (n + 1) Call.Get ++
                    (sendUpdate w parameters (rest.drop (n + 1))).2)) ∧
            (∃ tail, (sendUpdate w parameters (rest.drop (n + 1))).2 =
                Call.Update parameters :: tail ∧ ∀ c ∈ tail, c = Call.Get) ∧
            (∀ result resultProps, w.Update parameters = .ok result →
              result.PoolProperties = some resultProps →
              resultProps.AllocationState = AllocationStateSteady → w.Read = none →
              resourceBatchPoolUpdate x w d =
                (some (.ok ()),
                  Call.Get :: Call.StopResize ::
                    (List.replicate (n + 1) Call.Get ++ [Call.Update parameters])))) ∧
          (∀ e, updateParameters x d = .error e →
            resourceBatchPoolUpdate x w d =
              (some (.error e),
                Call.Get :: Call.StopResize :: List.replicate (n + 1) Call.Get))))) := by
  refine ⟨?_, ?_⟩
  · intro hflag
    simp [resourceBatchPoolUpdate, hid, hget, hprops, hstate, hflag, Call.isStopResize,
      Call.isUpdate]
  · intro hflag
    refine ⟨?_, ?_, ?_, ?_⟩
    · cases hstop : w.StopResize with
      | some err =>
        simp [resourceBatchPoolUpdate, hid, hget, hprops, hstate, hflag, hstop]
      | none =>
        rw [resourceBatchPoolUpdate_of_wait x w d id pool props rest hid hget hprops hstate
          hflag hstop]
        rcases waitForBatchPoolPendingResizeOperation rest with ⟨r, calls, left⟩
        rcases r with _ | (u | e | _) <;> try exact ⟨_, rfl⟩
        dsimp only
        cases updateParameters x d <;> exact ⟨_, rfl⟩
    · have hgets := waitFor_calls rest
      have hok := waitFor_ok rest
      simp only [resourceBatchPoolUpdate, hid, hget, hprops, hstate, hflag, ne_eq,
        not_false_eq_true, if_true, Bool.not_true, Bool.false_eq_true, if_false]
      cases hstop : w.StopResize with
      | some err => simp
      | none =>
        rcases hw : waitForBatchPoolPendingResizeOperation rest with ⟨r, calls, left⟩
        rw [hw] at hgets
        have hnot : ∀ parameters, Call.Update parameters ∉ calls := by
          intro parameters hmem
          cases hgets _ hmem
        rcases r with _ | (u | e | _)
        · simp [hnot]
        · obtain ⟨n, hn, hsteady, hbefore⟩ := hok u calls left hw
          dsimp only
          cases hbuild : updateParameters x d with
          | panic => simp [hnot]
          | error err => simp [hnot]
          | ok parameters =>
            obtain ⟨tail, htail, htailgets⟩ := sendUpdate_calls w parameters left
            dsimp only
            rw [htail]
            intro p hp
            have hpeq : p = parameters := by
              simp only [List.cons_append, List.nil_append, List.mem_cons, List.mem_append,
                reduceCtorEq, false_or] at hp
              rcases hp with hp | hp | hp
              · exact absurd hp (hnot p)
              · cases hp; rfl
              · cases htailgets _ hp
            subst hpeq
            refine ⟨rfl, rfl, n, tail, ?_, hsteady, hbefore⟩
            rw [hn]
            rfl
        · simp [hnot]
        · simp [hnot]
    · intro err hstop
      simp [resourceBatchPoolUpdate, hid, hget, hprops, hstate, hflag, hstop]
    · intro n hstop hbefore
      have hwait := resourceBatchPoolUpdate_of_wait x w d id pool props rest hid hget hprops
        hstate hflag hstop
      refine ⟨?_, ?_⟩
      · rintro ⟨e, he⟩
        rw [hwait, waitFor_first_failure rest n e hbefore he]
        rfl
      · intro hsteady
        rw [waitFor_first_steady rest n hbefore hsteady] at hwait
        refine ⟨?_, ?_⟩
        · intro parameters hbuild
          have hsent : resourceBatchPoolUpdate x w d =
              ((sendUpdate w parameters (rest.drop (n + 1))).1,
                Call.Get :: Call.StopResize ::
                  (List.replicate (n + 1) Call.Get ++
                    (sendUpdate w parameters (rest.drop (n + 1))).2)) := by
            rw [hwait]
            simp only [hbuild]
            rfl
          refine ⟨hsent, sendUpdate_calls w parameters _, ?_⟩
          intro result resultProps hupdate hresult hsteadyResult hread
          rw [hsent]
          simp [sendUpdate, hupdate, hresult, hsteadyResult, hread]
        · intro e hbuild
          rw [hwait]
          simp only [hbuild]
          rfl

/-- Witness for C6: on the example remote side the pool is resizing at the start and the flag is
set; the handler calls `StopResize`, polls `Get` twice, the second answer being steady, then
sends the request it built as `Update`, and returns nil. -/
theorem resourceBatchPoolUpdate_pending_resize_witness :
    updateParameters exampleExpanded exampleData = .ok exampleParameters ∧
    resourceBatchPoolUpdate exampleExpanded exampleWorld exampleData =
      (some (.ok ()),
        [Call.Get, Call.StopResize, Call.Get, Call.Get, Call.Update exampleParameters]) :=
  ⟨rfl,
    (((((resourceBatchPoolUpdate_pending_resize exampleExpanded exampleWorld exampleData
      "pool"
      { PoolProperties := some { exampleProperties with AllocationState := "Resizing" }
        Identity := none }
      { exampleProperties with AllocationState := "Resizing" }
      [poolInState "Stopping", poolInState "Steady"] rfl rfl rfl (by decide)).2 rfl).2.2.2 1 rfl
      (by
        intro i hi
        have hi0 : i = 0 := by omega
        subst hi0
        exact ⟨poolInState "Stopping", "Stopping", rfl, rfl, by decide⟩)).2
      ⟨poolInState "Steady", rfl, rfl⟩).1 exampleParameters rfl).2.2
      { exampleParameters with
        PoolProperties := some { exampleProperties with AllocationState := "Steady" } }
      { exampleProperties with AllocationState := "Steady" } rfl rfl rfl rfl⟩

/-- The wait loop on answers that carry pool properties: when answer `n` of `Get` is a failure
or a steady pool and the answers before it are pools with an allocation state other than
`Steady`, `waitForBatchPoolPendingResizeOperation` ends after exactly `n + 1` calls of `Get`,
with an error when answer `n` is a failure and with nil when it is steady; and whenever it
returns nil, the last answer it read was steady. -/
theorem waitForBatchPoolPendingResizeOperation_spec (responses : List GetResponse) (n : Nat)
    (hbefore : ∀ i, i < n → ∃ r st, responses[i]? = some r ∧ r.allocationState = some st ∧
      st ≠ AllocationStateSteady) :
    ((∃ e, responses[n]? = some (.error e)) →
      (∃ e, (waitForBatchPoolPendingResizeOperation responses).1 = some (.error e)) ∧
      (waitForBatchPoolPendingResizeOperation responses).2.1 = List.replicate (n + 1) Call.Get) ∧
    ((∃ r, responses[n]? = some r ∧ r.allocationState = some AllocationStateSteady) →
      (waitForBatchPoolPendingResizeOperation responses).1 = some (.ok ()) ∧
      (waitForBatchPoolPendingResizeOperation responses).2.1 = List.replicate (n + 1) Call.Get) ∧
    ((waitForBatchPoolPendingResizeOperation responses).1 = some (.ok ()) →
      ∃ m r, responses[m]? = some r ∧ r.allocationState = some AllocationStateSteady ∧
        (waitForBatchPoolPendingResizeOperation responses).2.1 =
          List.replicate (m + 1) Call.Get) := by
  refine ⟨?_, ?_, ?_⟩
  · induction n generalizing responses with
    | zero =>
      rintro ⟨e, he⟩
      cases responses with
      | nil => simp at he
      | cons r rest =>
        simp only [List.getElem?_cons_zero, Option.some.injEq] at he
        subst he
        simp [waitForBatchPoolPendingResizeOperation]
    | succ k ih =>
      rintro ⟨e, he⟩
      obtain ⟨r, st, hr0, hr, hst⟩ := hbefore 0 (by omega)
      cases responses with
      | nil => simp at hr0
      | cons r0 rest =>
        simp only [List.getElem?_cons_zero, Option.some.injEq] at hr0
        subst hr0
        have hrest : ∀ i, i < k → ∃ r st, rest[i]? = some r ∧ r.allocationState = some st ∧
            st ≠ AllocationStateSteady := by
          intro i hi
          simpa using hbefore (i + 1) (by omega)
        obtain ⟨⟨e2, h1⟩, h2⟩ := ih rest hrest ⟨e, by simpa using he⟩
        rw [waitFor_cons_not_steady r0 rest st hr hst]
        exact ⟨⟨e2, h1⟩, by simp only [h2]; rfl⟩
  · induction n generalizing responses with
    | zero =>
      rintro ⟨r, hr0, hr⟩
      cases responses with
      | nil => simp at hr0
      | cons r0 rest =>
        simp only [List.getElem?_cons_zero, Option.some.injEq] at hr0
        subst hr0
        cases r0 with
        | error err => simp [GetResponse.allocationState] at hr
        | ok pool =>
          cases hp : pool.PoolProperties with
          | none => simp [GetResponse.allocationState, hp] at hr
          | some props =>
            simp only [GetResponse.allocationState, hp, Option.map_some',
              Option.some.injEq] at hr
            rw [waitForBatchPoolPendingResizeOperation]
            simp [hp, hr]
    | succ k ih =>
      rintro ⟨r, hrn, hr⟩
      obtain ⟨r0, st, hr0, hr0s, hst⟩ := hbefore 0 (by omega)
      cases responses with
      | nil => simp at hr0
      | cons r1 rest =>
        simp only [List.getElem?_cons_zero, Option.some.injEq] at hr0
        subst hr0
        have hrest : ∀ i, i < k → ∃ r st, rest[i]? = some r ∧ r.allocationState = some st ∧
            st ≠ AllocationStateSteady := by
          intro i hi
          simpa using hbefore (i + 1) (by omega)
        obtain ⟨h1, h2⟩ := ih rest hrest ⟨r, by simpa using hrn, hr⟩
        rw [waitFor_cons_not_steady r1 rest st hr0s hst]
        exact ⟨h1, by simp only [h2]; rfl⟩
  · intro hok
    rcases hw : waitForBatchPoolPendingResizeOperation responses with ⟨res, calls, left⟩
    rw [hw] at hok
    simp only at hok
    subst hok
    obtain ⟨m, hm, ⟨r, hr0, hr⟩, -⟩ := waitFor_ok responses () calls left hw
    exact ⟨m, r, hr0, hr, hm⟩

/-- With the example answers, resizing then steady, the loop ends with nil after two calls. -/
theorem waitForBatchPoolPendingResizeOperation_spec_witness :
    (waitForBatchPoolPendingResizeOperation exampleResponses).1 = some (.ok ()) ∧
    (waitForBatchPoolPendingResizeOperation exampleResponses).2.1 = [Call.Get, Call.Get] :=
  (waitForBatchPoolPendingResizeOperation_spec exampleResponses 1
    (by
      intro i hi
      have hi0 : i = 0 := by omega
      subst hi0
      exact ⟨poolInState "Resizing", "Resizing", rfl, rfl, by decide⟩)).2.1
    ⟨poolInState "Steady", rfl, rfl⟩

/-- C14, where the code departs from it: in the answers `nilPropertiesResponses` the first
answer that is a failure or a steady pool is answer 1, answer 0 being a successful `Get` of a
pool whose `PoolProperties` is nil; the loop reads `resp.PoolProperties.AllocationState` of
answer 0, so it panics after one call of `Get` instead of returning nil after two, and answer 1
is never read. -/
theorem waitForBatchPoolPendingResizeOperation_nil_properties :
    nilPropertiesResponses[0]? = some (.ok { PoolProperties := none, Identity := none }) ∧
    (∃ r, nilPropertiesResponses[1]? = some r ∧
      r.allocationState = some AllocationStateSteady) ∧
    waitForBatchPoolPendingResizeOperation nilPropertiesResponses =
      (some .panic, [Call.Get], [poolInState "Steady"]) :=
  ⟨rfl, ⟨poolInState "Steady", rfl, rfl⟩, rfl⟩

end BatchPool

namespace ServiceBus

/-- The capacity check passes exactly for a premium SKU with a positive capacity and for another
SKU with capacity 0; when it passes the request SKU carries `int32(capacity)`. -/
theorem capacityCheck_some (sku : String) (c : Int) (requestSku : SBSku) :
    capacityCheck sku (some c) requestSku =
      if EqualFold sku SkuNamePremium = true then
        (if c = 0 then .error .capacityMustBePositive
         else .ok { requestSku with Capacity := some (toInt32 c) })
      else
        (if c > 0 then .error .capacityMustBeZero
         else .ok { requestSku with Capacity := some (toInt32 c) }) := by
  unfold capacityCheck
  cases EqualFold sku SkuNamePremium <;> by_cases h0 : c = 0 <;> by_cases h1 : c > 0 <;>
    simp [h0, h1]

/-- When the capacity check fails, the handler returns an error without `CreateOrUpdate`. -/
theorem createUpdate_of_capacityCheck_error (h : Helpers) (w : World) (d : ResourceData)
    (e : Error)
    (hk : capacityCheck d.sku d.capacity { Name := d.sku, Tier := d.sku, Capacity := none }
      = .error e) :
    (resourceServiceBusNamespaceCreateUpdate h w d).1.isError = true ∧
      ∀ call ∈ (resourceServiceBusNamespaceCreateUpdate h w d).2,
        call.isCreateOrUpdate = false := by
  simp only [resourceServiceBusNamespaceCreateUpdate]
  rw [hk]
  cases w.IsNewResource <;> cases w.GetErr <;> cases w.GetWasNotFound <;>
    cases expandServiceBusNamespaceIdentity d.identity <;>
    simp [Outcome.isError, Call.isCreateOrUpdate]

/-- When the capacity check passes, every `CreateOrUpdate` request carries the SKU it built. -/
theorem createUpdate_of_capacityCheck_ok (h : Helpers) (w : World) (d : ResourceData)
    (s : SBSku)
    (hk : capacityCheck d.sku d.capacity { Name := d.sku, Tier := d.sku, Capacity := none }
      = .ok s) :
    ∀ parameters, Call.CreateOrUpdate parameters ∈
        (resourceServiceBusNamespaceCreateUpdate h w d).2 → parameters.Sku = some s := by
  intro parameters
  simp only [resourceServiceBusNamespaceCreateUpdate]
  rw [hk]
  cases w.IsNewResource <;> cases w.GetErr <;> cases w.GetWasNotFound <;>
    cases expandServiceBusNamespaceIdentity d.identity <;>
    cases w.WaitForCompletionRef <;> cases w.Read <;>
    simp <;> split <;> simp <;> intro hp <;> subst hp <;> rfl

/-- When the existing-resource check, the identity expansion and the capacity check pass, the
handler sends exactly one `CreateOrUpdate`, with the request it built, and its result is that
of the steps from `CreateOrUpdate` on. -/
theorem createUpdate_sends (h : Helpers) (w : World) (d : ResourceData)
    (identity : Identity) (s : SBSku)
    (hexisting : w.IsNewResource = false ∨ w.GetWasNotFound = true)
    (hidentity : expandServiceBusNamespaceIdentity d.identity = .ok identity)
    (hk : capacityCheck d.sku d.capacity { Name := d.sku, Tier := d.sku, Capacity := none }
      = .ok s) :
    (resourceServiceBusNamespaceCreateUpdate h w d).2 =
        (if w.IsNewResource = true then [Call.Get] else []) ++
          [Call.CreateOrUpdate
            { Location := some (h.NormalizeLocation d.location)
              Sku := some s
              SBNamespaceProperties := some { ZoneRedundant := some d.zone_redundant }
              Identity := some identity
              Tags := h.tagsExpand d.tags }] ∧
      ((resourceServiceBusNamespaceCreateUpdate h w d).1 = .ok () ↔
        w.CreateOrUpdate
            { Location := some (h.NormalizeLocation d.location)
              Sku := some s
              SBNamespaceProperties := some { ZoneRedundant := some d.zone_redundant }
              Identity := some identity
              Tags := h.tagsExpand d.tags } = none ∧
          w.WaitForCompletionRef = none ∧ w.Read = none) := by
  simp only [resourceServiceBusNamespaceCreateUpdate]
  rw [hk, hidentity]
  rcases hexisting with hn | hf
  · rw [hn]
    cases w.WaitForCompletionRef <;> cases w.Read <;> simp <;> split <;> simp_all
  · rw [hf]
    cases w.IsNewResource <;> cases w.GetErr <;>
      cases w.WaitForCompletionRef <;> cases w.Read <;> simp <;> split <;> simp_all

/-- C5: for a capacity the schema accepts (0, 1, 2, 4, 8 or 16), the capacity check of
`resourceServiceBusNamespaceCreateUpdate` passes if and only if the SKU is Premium ignoring case
and the capacity is one of 1, 2, 4, 8, 16, or the SKU is not Premium and the capacity is 0; when
it fails the handler returns an error and makes no `CreateOrUpdate` call; when it passes the
SKU of the request carries the configured capacity in `Sku.Capacity`, every `CreateOrUpdate`
call carries that SKU, and, the existing-resource check and the identity expansion before it
having passed, the handler sends exactly one `CreateOrUpdate` call, last in its call list, whose
request holds that SKU, and it returns nil exactly when that call, the wait for its completion
and the final read succeed. -/
theorem resourceServiceBusNamespaceCreateUpdate_capacity
    (h : Helpers) (w : World) (d : ResourceData) (c : Int)
    (hcap : d.capacity = some c) (hc : c ∈ [0, 1, 2, 4, 8, 16]) :
    ((∃ s, capacityCheck d.sku d.capacity { Name := d.sku, Tier := d.sku, Capacity := none }
        = .ok s) ↔
      (EqualFold d.sku SkuNamePremium = true ∧ c ∈ [1, 2, 4, 8, 16]) ∨
      (EqualFold d.sku SkuNamePremium = false ∧ c = 0)) ∧
    ((∃ e, capacityCheck d.sku d.capacity { Name := d.sku, Tier := d.sku, Capacity := none }
        = .error e) →
      (resourceServiceBusNamespaceCreateUpdate h w d).1.isError = true ∧
      ∀ call ∈ (resourceServiceBusNamespaceCreateUpdate h w d).2,
        call.isCreateOrUpdate = false) ∧
    ((∃ s, capacityCheck d.sku d.capacity { Name := d.sku, Tier := d.sku, Capacity := none }
        = .ok s) →
      ∀ parameters, Call.CreateOrUpdate parameters ∈
          (resourceServiceBusNamespaceCreateUpdate h w d).2 →
        ∃ s, parameters.Sku = some s ∧ s.Capacity = some c) ∧
    ((∃ s, capacityCheck d.sku d.capacity { Name := d.sku, Tier := d.sku, Capacity := none }
        = .ok s) →
      capacityCheck d.sku d.capacity { Name := d.sku, Tier := d.sku, Capacity := none }
        = .ok { Name := d.sku, Tier := d.sku, Capacity := some c } ∧
      ∀ identity, (w.IsNewResource = false ∨ w.GetWasNotFound = true) →
        expandServiceBusNamespaceIdentity d.identity = .ok identity →
        (resourceServiceBusNamespaceCreateUpdate h w d).2 =
            (if w.IsNewResource = true then [Call.Get] else []) ++
              [Call.CreateOrUpdate
                { Location := some (h.NormalizeLocation d.location)
                  Sku := some { Name := d.sku, Tier := d.sku, Capacity := some c }
                  SBNamespaceProperties := some { ZoneRedundant := some d.zone_redundant }
                  Identity := some identity
                  Tags := h.tagsExpand d.tags }] ∧
          ((resourceServiceBusNamespaceCreateUpdate h w d).1 = .ok () ↔
            w.CreateOrUpdate
                { Location := some (h.NormalizeLocation d.location)
                  Sku := some { Name := d.sku, Tier := d.sku, Capacity := some c }
                  SBNamespaceProperties := some { ZoneRedundant := some d.zone_redundant }
                  Identity := some identity
                  Tags := h.tagsExpand d.tags } = none ∧
              w.WaitForCompletionRef = none ∧ w.Read = none)) := by
  have h32 : toInt32 c = c := by
    simp only [List.mem_cons, List.mem_singleton, List.not_mem_nil, or_false] at hc
    rcases hc with h | h | h | h | h | h <;> subst h <;> decide
  have hsku : ∀ s, capacityCheck d.sku d.capacity
      { Name := d.sku, Tier := d.sku, Capacity := none } = .ok s →
      s = { Name := d.sku, Tier := d.sku, Capacity := some c } := by
    intro s hs
    rw [hcap, capacityCheck_some] at hs
    cases hf : EqualFold d.sku SkuNamePremium <;> rw [hf] at hs <;>
      simp only [Bool.false_eq_true, if_false, if_true] at hs <;>
      split at hs <;> first
        | (cases hs; rw [h32])
        | (cases hs)
  refine ⟨?_, ?_, ?_, ?_⟩
  · rw [hcap, capacityCheck_some]
    simp only [List.mem_cons, List.mem_singleton, List.not_mem_nil, or_false] at hc ⊢
    cases EqualFold d.sku SkuNamePremium <;>
      rcases hc with h | h | h | h | h | h <;> subst h <;> simp
  · rintro ⟨e, he⟩
    exact createUpdate_of_capacityCheck_error h w d e he
  · rintro ⟨s, hs⟩ parameters hp
    refine ⟨s, createUpdate_of_capacityCheck_ok h w d s hs parameters hp, ?_⟩
    rw [hsku s hs]
  · rintro ⟨s, hs⟩
    have hs2 := hs
    rw [hsku s hs] at hs2
    exact ⟨hs2, fun identity hexisting hidentity =>
      createUpdate_sends h w d identity _ hexisting hidentity hs2⟩

/-- Witness for C5: the premium example of capacity 4 passes the check, and the handler sends
one `CreateOrUpdate` whose request carries capacity 4 and returns nil. -/
theorem resourceServiceBusNamespaceCreateUpdate_capacity_witness :
    (∃ s, capacityCheck exampleData.sku exampleData.capacity
        { Name := exampleData.sku, Tier := exampleData.sku, Capacity := none } = .ok s) ∧
    (resourceServiceBusNamespaceCreateUpdate exampleHelpers exampleWorld exampleData).2 =
      [Call.CreateOrUpdate
        { Location := some "westeurope"
          Sku := some { Name := "premium", Tier := "premium", Capacity := some 4 }
          SBNamespaceProperties := some { ZoneRedundant := some false }
          Identity := some { Type_ := "None", UserAssignedIdentities := none }
          Tags := [] }] ∧
    (resourceServiceBusNamespaceCreateUpdate exampleHelpers exampleWorld exampleData).1 =
      .ok () :=
  have key := resourceServiceBusNamespaceCreateUpdate_capacity exampleHelpers exampleWorld
    exampleData 4 rfl (by decide)
  have hok := key.1.2 (Or.inl ⟨by decide, by decide⟩)
  have hsent := (key.2.2.2 hok).2 { Type_ := "None", UserAssignedIdentities := none }
    (Or.inl rfl) rfl
  ⟨hok, hsent.1, hsent.2.2 ⟨rfl, rfl, rfl⟩⟩

/-- The keys after the loop are the keys before it together with the given ids. -/
theorem mem_setAll (ids m : List String) (k : String) :
    k ∈ setAll m ids ↔ k ∈ m ∨ k ∈ ids := by
  induction ids generalizing m with
  | nil => simp [setAll]
  | cons id rest ih =>
    rw [setAll, ih]
    unfold mapSet
    by_cases hm : id ∈ m
    · simp only [hm, if_true, List.mem_cons]
      constructor
      · rintro (h | h)
        · exact Or.inl h
        · exact Or.inr (Or.inr h)
      · rintro (h | h | h)
        · exact Or.inl h
        · exact Or.inl (h ▸ hm)
        · exact Or.inr h
    · simp only [hm, if_false, List.mem_append, List.mem_singleton, List.mem_cons]
      tauto

/-- The loop keeps the key list free of duplicates. -/
theorem nodup_setAll (ids m : List String) (hm : m.Nodup) : (setAll m ids).Nodup := by
  induction ids generalizing m with
  | nil => simpa [setAll] using hm
  | cons id rest ih =>
    rw [setAll]
    apply ih
    unfold mapSet
    by_cases h : id ∈ m
    · simpa [h] using hm
    · simp only [h, if_false]
      exact List.Nodup.append hm (List.nodup_singleton id) (by simpa using h)

/-- C9: `expandServiceBusNamespaceIdentity` returns an error if and only if `identity_ids` is
non-empty and `type` is neither `UserAssigned` nor `SystemAssigned, UserAssigned`; when it
succeeds with non-empty `identity_ids` the keys of `UserAssignedIdentities` are exactly the given
ids; on an empty input list, or one whose first element is nil, the result has type `None` and
no user assigned identities. -/
theorem expandServiceBusNamespaceIdentity_spec (input : List (Option IdentityBlock)) :
    ((∃ e, expandServiceBusNamespaceIdentity input = .error e) ↔
      ∃ v rest, input = some v :: rest ∧ v.identity_ids ≠ [] ∧
        v.type ≠ ManagedServiceIdentityTypeUserAssigned ∧
        v.type ≠ ManagedServiceIdentityTypeSystemAssignedUserAssigned) ∧
    (∀ v rest config, input = some v :: rest → v.identity_ids ≠ [] →
      expandServiceBusNamespaceIdentity input = .ok config →
      config.Type_ = v.type ∧
      ∃ keys, config.UserAssignedIdentities = some keys ∧ keys.Nodup ∧
        ∀ k, k ∈ keys ↔ k ∈ v.identity_ids) ∧
    ((input = [] ∨ ∃ rest, input = none :: rest) →
      expandServiceBusNamespaceIdentity input =
        .ok { Type_ := ManagedServiceIdentityTypeNone, UserAssignedIdentities := none }) := by
  refine ⟨?_, ?_, ?_⟩
  · cases input with
    | nil => simp [expandServiceBusNamespaceIdentity]
    | cons first rest =>
      cases first with
      | none => simp [expandServiceBusNamespaceIdentity]
      | some v =>
        simp only [expandServiceBusNamespaceIdentity]
        by_cases hids : v.identity_ids = []
        · simp [hids]
        · have hlen : v.identity_ids.length ≠ 0 := by
            simpa [List.length_eq_zero] using hids
          by_cases ht : v.type ≠ ManagedServiceIdentityTypeSystemAssignedUserAssigned ∧
              v.type ≠ ManagedServiceIdentityTypeUserAssigned
          · simp [hlen, hids, ht]
          · simp [hlen, hids, ht]
            intro h1
            by_contra h2
            exact ht ⟨h2, h1⟩
  · intro v rest config hin hids hok
    subst hin
    have hlen : v.identity_ids.length ≠ 0 := by
      simpa [List.length_eq_zero] using hids
    simp only [expandServiceBusNamespaceIdentity, hlen, ne_eq, not_false_eq_true, if_true]
      at hok
    split at hok
    · cases hok
    · cases hok
      refine ⟨rfl, setAll [] v.identity_ids, rfl, nodup_setAll _ _ List.nodup_nil, ?_⟩
      intro k
      simp [mem_setAll]
  · rintro (h | ⟨rest, h⟩) <;> subst h <;> rfl

/-- Witness for C9: the example block with two ids expands to an identity whose keys are the
two ids. -/
theorem expandServiceBusNamespaceIdentity_spec_witness :
    ∃ keys, (some ["/id/a", "/id/b"] : Option (List String)) = some keys ∧ keys.Nodup ∧
      ∀ k, k ∈ keys ↔ k ∈ exampleIdentity.identity_ids :=
  ((expandServiceBusNamespaceIdentity_spec [some exampleIdentity]).2.1 exampleIdentity []
    { Type_ := "UserAssigned", UserAssignedIdentities := some ["/id/a", "/id/b"] }
    rfl (by decide) rfl).2

end ServiceBus

namespace AzureCli

/-- C10: when the output of `az version` is decoded as a JSON object, `populateAzVersion`
returns a version `v` if and only if the `azure-cli` field is present, parses as `v`, and
`minimum <= v < 3.0.0`, where `minimum` is `2.0.81` when `tenantOnly` is true and `2.0.79`
otherwise; in every other case it returns an error.  The two constants parse, and comparing
with them is total: `c <= v` holds exactly when `v < c` does not. -/
theorem populateAzVersion_spec {V : Type} (lib : VersionLibrary V) (az : List String → AzRun)
    (Unmarshal : String → Except String (Option CliVersion)) (tenantOnly : Bool)
    (cliVersion : CliVersion) (minimum nextMajor : V)
    (hjson : (jsonUnmarshalAzCmd az Unmarshal ["version", "-o=json"]).1 = .ok (some cliVersion))
    (hminimum : lib.NewVersion (if tenantOnly = true then "2.0.81" else "2.0.79") = .ok minimum)
    (hnextMajor : lib.NewVersion "3.0.0" = .ok nextMajor)
    (htotalMinimum : ∀ v, lib.Compare minimum v ≤ 0 ↔ ¬ lib.Compare v minimum < 0)
    (htotalNextMajor : ∀ v, lib.Compare nextMajor v ≤ 0 ↔ ¬ lib.Compare v nextMajor < 0) :
    (∀ v, populateAzVersion lib az Unmarshal tenantOnly = .ok v ↔
      ∃ azureCli, cliVersion.AzureCli = some azureCli ∧ lib.NewVersion azureCli = .ok v ∧
        lib.LessThanOrEqual minimum v = true ∧ lib.LessThan v nextMajor = true) ∧
    ((∃ v, populateAzVersion lib az Unmarshal tenantOnly = .ok v) ∨
      ∃ e, populateAzVersion lib az Unmarshal tenantOnly = .error e) := by
  simp only [populateAzVersion, hjson, hminimum, hnextMajor, VersionLibrary.LessThanOrEqual,
    VersionLibrary.LessThan, decide_eq_true_eq]
  cases hcli : cliVersion.AzureCli with
  | none => simp
  | some azureCli =>
    cases hparse : lib.NewVersion azureCli with
    | error err => simp [hparse]
    | ok actual =>
      have h1 := htotalMinimum actual
      have h2 := htotalNextMajor actual
      simp only [hparse, Option.some.injEq, exists_eq_left']
      by_cases hn : lib.Compare nextMajor actual ≤ 0
      · have hn2 : ¬ lib.Compare actual nextMajor < 0 := h2.1 hn
        simp only [hn, if_true, reduceCtorEq, false_iff, exists_false, false_or]
        refine ⟨fun v hv => ?_, ⟨_, rfl⟩⟩
        obtain ⟨hv1, -, hv3⟩ := hv
        cases hv1
        exact hn2 hv3
      · have hn2 : lib.Compare actual nextMajor < 0 := by
          by_contra hc
          exact hn (h2.2 hc)
        by_cases hm : lib.Compare actual minimum < 0
        · have hm2 : ¬ lib.Compare minimum actual ≤ 0 := fun hc => (h1.1 hc) hm
          simp only [hn, hm, if_true, if_false, reduceCtorEq, false_iff, exists_false, false_or]
          refine ⟨fun v hv => ?_, ⟨_, rfl⟩⟩
          obtain ⟨hv1, hv2, -⟩ := hv
          cases hv1
          exact hm2 hv2
        · have hm2 : lib.Compare minimum actual ≤ 0 := h1.2 hm
          simp only [hn, hm, if_false, Outcome.ok.injEq]
          refine ⟨fun v => ⟨fun hv => ?_, fun hv => ?_⟩, Or.inl ⟨actual, rfl⟩⟩
          · subst hv
            exact ⟨rfl, hm2, hn2⟩
          · cases hv.1
            rfl

/-- Witness for C10: with the example library, version 2.30.0 is detected and returned. -/
theorem populateAzVersion_spec_witness :
    populateAzVersion exampleLibrary exampleAz exampleUnmarshal false = .ok 2030000 :=
  ((populateAzVersion_spec exampleLibrary exampleAz exampleUnmarshal false
    { AzureCli := some "2.30.0", AzureCliCore := none, AzureCliTelemetry := none
      Extensions := none } 2000079 3000000 rfl rfl rfl
    (by intro v; simp only [exampleLibrary]; omega)
    (by intro v; simp only [exampleLibrary]; omega)).1 2030000).2
    ⟨"2.30.0", rfl, rfl, by decide, by decide⟩

/-- C11: `azureCliTokenAuth.validate` returns nil if and only if the profile is non-nil,
`clientId` and `tenantId` are non-empty, and `tenantOnly` is true or `subscriptionId` is
non-empty; with a non-nil profile the number of reported errors is the number of violated
requirements among the three (the subscription ID is not required in tenant-only mode). -/
theorem validate_spec (a : azureCliTokenAuth) :
    (a.validate = none ↔
      ∃ p, a.profile = some p ∧ p.clientId ≠ "" ∧ p.tenantId ≠ "" ∧
        (p.tenantOnly = true ∨ p.subscriptionId ≠ "")) ∧
    (∀ p, a.profile = some p →
      reportedErrors a.validate =
        (if p.clientId = "" then 1 else 0) +
        (if p.tenantOnly = false ∧ p.subscriptionId = "" then 1 else 0) +
        (if p.tenantId = "" then 1 else 0)) := by
  obtain ⟨profile, link⟩ := a
  cases profile with
  | none => simp [azureCliTokenAuth.validate]
  | some p =>
    obtain ⟨clientId, environment, subscriptionId, tenantId, tenantOnly⟩ := p
    simp only [azureCliTokenAuth.validate, Option.some.injEq, exists_eq_left', forall_eq']
    by_cases hc : clientId = "" <;> by_cases ht : tenantId = "" <;>
      by_cases hs : subscriptionId = "" <;> cases tenantOnly <;>
      simp [hc, ht, hs, multierrorAppend, ErrorOrNil, reportedErrors]

/-- Witness for C11: the tenant-only example profile lacks only the tenant ID, and one error is
reported. -/
theorem validate_spec_witness :
    reportedErrors
      (azureCliTokenAuth.validate
        { profile := some exampleProfile, servicePrincipalAuthDocsLink := "" }) = 1 :=
  (validate_spec { profile := some exampleProfile, servicePrincipalAuthDocsLink := "" }).2
    exampleProfile rfl

/-- C15: `jsonUnmarshalAzCmd` launches the `az` command exactly once, whatever the outcome, and
returns an error if and only if the launch fails, the process ends with a failure, or its
standard output cannot be decoded into the target. -/
theorem jsonUnmarshalAzCmd_spec {α : Type} (az : List String → AzRun)
    (Unmarshal : String → Except String α) (arg : List String) :
    (jsonUnmarshalAzCmd az Unmarshal arg).2 = [arg] ∧
    ((∃ e, (jsonUnmarshalAzCmd az Unmarshal arg).1 = .error e) ↔
      (az arg).Start ≠ none ∨ (az arg).Wait ≠ none ∨
        ∃ e, Unmarshal (az arg).stdout = .error e) := by
  simp only [jsonUnmarshalAzCmd]
  cases hs : (az arg).Start with
  | some err => simp [hs]
  | none =>
    cases hw : (az arg).Wait with
    | some err => simp [hs, hw]
    | none =>
      cases hu : Unmarshal (az arg).stdout with
      | error err => simp [hs, hw, hu]
      | ok i => simp [hs, hw, hu]

end AzureCli

namespace KeyVault

/-- An empty page result has no items. -/
theorem items_eq_nil_of_isEmpty (clr : CertificateListResult) (h : clr.IsEmpty = true) :
    clr.items = [] := by
  obtain ⟨value⟩ := clr
  cases value with
  | none => rfl
  | some v =>
    cases v with
    | nil => rfl
    | cons a t => simp [CertificateListResult.IsEmpty] at h

/-- The inner loop, started at position `pre.length` of a page whose remaining items are `vs`,
reads the names of `vs` and leaves the iterator at the start of the next page. -/
theorem readPage_aligned (env : Environment) (clr : CertificateListResult)
    (following : List (Except String CertificateListResult))
    (next : CertificateListResultPage) (hnext : nextResults following = .ok next)
    (vs : List CertificateItem) :
    ∀ (pre : List CertificateItem) (names : List String),
      clr.Value = some (pre ++ vs) → vs ≠ [] → (∀ item ∈ vs, Parses env item) →
      readPage env vs { i := pre.length, page := { clr := clr, following := following } } names
        = .ok ({ i := 0, page := next }, names ++ pageNames env vs) := by
  induction vs with
  | nil => intro pre names _ h; exact absurd rfl h
  | cons v rest ih =>
    intro pre names hvalue _ hparse
    obtain ⟨id, name, hid, hname⟩ := hparse v (by simp)
    have hvalues : ({ clr := clr, following := following } : CertificateListResultPage).Values
        = pre ++ v :: rest := by
      simp [CertificateListResultPage.Values, hvalue]
    cases rest with
    | nil =>
      simp [readPage, pageNames, hid, hname, CertificateListResultIterator.NextWithContext,
        hvalues, hnext]
    | cons w ws =>
      have hstep : readPage env (v :: w :: ws)
          { i := pre.length, page := { clr := clr, following := following } } names =
          readPage env (w :: ws)
            { i := (pre ++ [v]).length, page := { clr := clr, following := following } }
            (names ++ [name]) := by
        simp [readPage, hid, hname, CertificateListResultIterator.NextWithContext, hvalues]
      rw [hstep, ih (pre ++ [v]) (names ++ [name]) (by simpa using hvalue) (by simp)
        (fun item hitem => hparse item (by simp [List.mem_cons] at hitem ⊢; tauto))]
      simp [pageNames, hid, hname]

/-- Fetching the next page over answers that do not fail succeeds: it gives a page and
following pages with the same certificates, the page being empty only at the end. -/
theorem nextResults_ok (env : Environment) (l : List CertificateListResult)
    (hparse : ∀ page ∈ l, ∀ item ∈ page.items, Parses env item) :
    ∃ clr rest, nextResults (l.map .ok) = .ok { clr := clr, following := rest.map .ok } ∧
      listedNames env (clr :: rest) = listedNames env l ∧
      (clr.IsEmpty = true → rest = []) ∧
      (clr.IsEmpty = false → rest.length + 1 ≤ l.length) ∧
      ∀ page ∈ clr :: rest, ∀ item ∈ page.items, Parses env item := by
  induction l with
  | nil =>
    refine ⟨{ Value := none }, [], rfl, rfl, fun _ => rfl, ?_, ?_⟩
    · intro h; simp [CertificateListResult.IsEmpty] at h
    · intro page hpage item hitem
      simp only [List.mem_singleton] at hpage
      subst hpage
      simp [CertificateListResult.items] at hitem
  | cons p ps ih =>
    by_cases hcond : ((ps.map (Except.ok (ε := String))).isEmpty || !p.IsEmpty) = true
    · refine ⟨p, ps, ?_, rfl, ?_, ?_, hparse⟩
      · simp only [List.map_cons, nextResults, hcond, if_true]
      · intro hp
        cases ps with
        | nil => rfl
        | cons a t => simp [hp] at hcond
      · intro _; simp
    · obtain ⟨clr, rest, h1, h2, h3, h4, h5⟩ :=
        ih (fun page hpage => hparse page (List.mem_cons_of_mem _ hpage))
      have hpe : p.IsEmpty = true := by
        cases hp : p.IsEmpty with
        | true => rfl
        | false => simp [hp] at hcond
      refine ⟨clr, rest, ?_, ?_, h3, ?_, h5⟩
      · simp only [List.map_cons, nextResults, hcond, if_false]
        exact h1
      · rw [h2]
        simp [listedNames, items_eq_nil_of_isEmpty p hpe, pageNames]
      · intro hc
        have := h4 hc
        simp only [List.length_cons]
        omega

/-- The outer loop, started on the first item of a page, reads the names of that page and of
the pages after it, given enough rounds. -/
theorem readPages_aligned (env : Environment) (fuel : Nat) :
    ∀ (clr : CertificateListResult) (rest : List CertificateListResult) (names : List String),
      (clr.IsEmpty = true → rest = []) →
      (∀ page ∈ clr :: rest, ∀ item ∈ page.items, Parses env item) →
      (if clr.IsEmpty = true then 1 else rest.length + 2) ≤ fuel →
      readPages env fuel { i := 0, page := { clr := clr, following := rest.map .ok } } names
        = some (.ok (names ++ listedNames env (clr :: rest))) := by
  induction fuel with
  | zero =>
    intro clr rest names _ _ hfuel
    split at hfuel <;> omega
  | succ fuel ih =>
    intro clr rest names hinv hparse hfuel
    cases hempty : clr.IsEmpty with
    | true =>
      have hrest := hinv hempty
      subst hrest
      simp [readPages, CertificateListResultIterator.NotDone, hempty, listedNames,
        items_eq_nil_of_isEmpty clr hempty, pageNames]
    | false =>
      rw [hempty] at hfuel
      simp only [Bool.false_eq_true, if_false] at hfuel
      obtain ⟨value⟩ := clr
      cases value with
      | none => simp [CertificateListResult.IsEmpty] at hempty
      | some value =>
        have hne : value ≠ [] := by
          intro h; subst h; simp [CertificateListResult.IsEmpty] at hempty
        have hlen : 0 < value.length := List.length_pos.2 hne
        obtain ⟨clr2, rest2, h1, h2, h3, h4, h5⟩ := nextResults_ok env rest
          (fun page hpage => hparse page (List.mem_cons_of_mem _ hpage))
        have hpage := readPage_aligned env { Value := some value } (rest.map .ok) _ h1 value
          [] names rfl hne (fun item hitem => hparse { Value := some value } (by simp) item
            (by simpa [CertificateListResult.items] using hitem))
        simp only [List.length_nil] at hpage
        have hnotdone : CertificateListResultIterator.NotDone
            { i := 0, page := { clr := { Value := some value }, following := rest.map .ok } }
            = true := by
          simp [CertificateListResultIterator.NotDone, hempty,
            CertificateListResultPage.Values, hlen]
        rw [readPages, if_pos hnotdone]
        simp only [CertificateListResultIterator.Response, hpage]
        rw [ih clr2 rest2 _ h3 h5 (by
          cases hc : clr2.IsEmpty with
          | true => simp; omega
          | false => have := h4 hc; simp; omega)]
        rw [h2]
        simp [listedNames, CertificateListResult.items]

/-- Over answers that do not fail, `GetCertificatesComplete` gives an iterator at the start of
a page, with the same certificates ahead. -/
theorem GetCertificatesComplete_ok (env : Environment) (pages : List CertificateListResult)
    (hparse : ∀ page ∈ pages, ∀ item ∈ page.items, Parses env item) :
    ∃ clr rest, GetCertificatesComplete (pages.map .ok) =
        .ok { i := 0, page := { clr := clr, following := rest.map .ok } } ∧
      listedNames env (clr :: rest) = listedNames env pages ∧
      (clr.IsEmpty = true → rest = []) ∧
      (clr.IsEmpty = false → rest.length + 1 ≤ pages.length) ∧
      ∀ page ∈ clr :: rest, ∀ item ∈ page.items, Parses env item := by
  cases pages with
  | nil =>
    refine ⟨{ Value := none }, [], rfl, rfl, fun _ => rfl, ?_, ?_⟩
    · intro h; simp [CertificateListResult.IsEmpty] at h
    · intro page hpage item hitem
      simp only [List.mem_singleton] at hpage
      subst hpage
      simp [CertificateListResult.items] at hitem
  | cons p ps =>
    by_cases hcond : (!(ps.map (Except.ok (ε := String))).isEmpty && p.IsEmpty) = true
    · obtain ⟨clr, rest, h1, h2, h3, h4, h5⟩ := nextResults_ok env ps
        (fun page hpage => hparse page (List.mem_cons_of_mem _ hpage))
      have hpe : p.IsEmpty = true := by
        cases hp : p.IsEmpty with
        | true => rfl
        | false => simp [hp] at hcond
      refine ⟨clr, rest, ?_, ?_, h3, ?_, h5⟩
      · simp only [List.map_cons, GetCertificatesComplete, hcond, if_true, h1]
      · rw [h2]
        simp [listedNames, items_eq_nil_of_isEmpty p hpe, pageNames]
      · intro hc
        have := h4 hc
        simp only [List.length_cons]
        omega
    · refine ⟨p, ps, ?_, rfl, ?_, ?_, hparse⟩
      · simp only [List.map_cons, GetCertificatesComplete, hcond, if_false]
        rfl
      · intro hp
        cases ps with
        | nil => rfl
        | cons a t => simp [hp] at hcond
      · intro _; simp

/-- Every item of a page that parses contributes one name. -/
theorem length_pageNames (env : Environment) (items : List CertificateItem)
    (hparse : ∀ item ∈ items, Parses env item) :
    (pageNames env items).length = items.length := by
  induction items with
  | nil => rfl
  | cons v rest ih =>
    obtain ⟨id, name, hid, hname⟩ := hparse v (by simp)
    simp [pageNames, hid, hname, ih (fun item hitem => hparse item (by simp [hitem]))]

/-- C13: for a listing of finitely many pages in which every item ID parses and no page fetch
fails, `dataSourceKeyVaultCertificatesRead` (given enough rounds of its outer loop, one more
than the number of pages) returns nil and sets `names` to the names of the certificates of all
pages in listing order, one name for each certificate. -/
theorem dataSourceKeyVaultCertificatesRead_names (env : Environment) (fuel : Nat)
    (keyVaultId baseUri : String) (pages : List CertificateListResult)
    (hid : env.VaultID = .ok keyVaultId) (huri : env.BaseUriForKeyVault = .ok baseUri)
    (hpages : env.certificates = pages.map .ok)
    (hparse : ∀ page ∈ pages, ∀ item ∈ page.items, Parses env item)
    (hfuel : pages.length < fuel) :
    dataSourceKeyVaultCertificatesRead env fuel =
      some (.ok { id := keyVaultId, names := listedNames env pages, key_vault_id := keyVaultId })
    ∧ (listedNames env pages).length = (pages.map (fun page => page.items.length)).sum := by
  refine ⟨?_, ?_⟩
  · obtain ⟨clr, rest, h1, h2, h3, h4, h5⟩ := GetCertificatesComplete_ok env pages hparse
    simp only [dataSourceKeyVaultCertificatesRead, hid, huri, hpages, h1,
      CertificateListResultIterator.Response]
    by_cases hvalue : clr.Value = none
    · have hempty : clr.IsEmpty = true := by simp [CertificateListResult.IsEmpty, hvalue]
      have hrest := h3 hempty
      subst hrest
      rw [← h2]
      simp [hvalue, listedNames, items_eq_nil_of_isEmpty clr hempty, pageNames]
    · have hloop := readPages_aligned env fuel clr rest [] h3 h5 (by
        cases hc : clr.IsEmpty with
        | true => simp; omega
        | false => have := h4 hc; simp; omega)
      simp only [ne_eq, hvalue, not_false_eq_true, if_true, hloop, h2, List.nil_append]
  · clear hpages hfuel
    induction pages with
    | nil => rfl
    | cons p ps ih =>
      simp only [listedNames, List.length_append, List.map_cons, List.sum_cons]
      rw [length_pageNames env p.items (hparse p (by simp)),
        ih (fun page hpage => hparse page (List.mem_cons_of_mem _ hpage))]

/-- Witness for C13: on the example listing of three pages, one of them empty, the names are
the three certificates in order. -/
theorem dataSourceKeyVaultCertificatesRead_names_witness :
    dataSourceKeyVaultCertificatesRead exampleEnvironment 4 =
      some (.ok { id := "vault", names := ["a", "b", "c"], key_vault_id := "vault" }) :=
  (dataSourceKeyVaultCertificatesRead_names exampleEnvironment 4 "vault"
    "https://vault.example" examplePages rfl rfl rfl
    (by
      intro page hpage item hitem
      cases item with
      | mk ID =>
        simp only [examplePages, List.mem_cons, List.mem_singleton, List.not_mem_nil,
          or_false] at hpage
        rcases hpage with h | h | h <;> subst h <;>
          simp [CertificateListResult.items] at hitem <;>
          first
            | (rcases hitem with h | h <;> subst h <;> exact ⟨_, _, rfl, rfl⟩)
            | (subst hitem; exact ⟨_, _, rfl, rfl⟩))
    (by decide)).1

end KeyVault

end TerraformProAzure
